/-
Verification of the zipfs archive-to-workspace lifecycle engine.

Shallow embedding of the Go sources:
  * internal/security: ValidatePath, ValidateAllPaths, ValidateRelativePath,
    CheckZipBombFromReader (zipbomb / sanitize files)
  * internal/core: Extract / extractFile, CreateSession, GetSession,
    ListSessions, ResolveSession, Sync, RotateBackups, LoadConfig /
    applyEnvOverrides, DataDir, ListFiles, Lock acquire / Release
  * internal/errors: the typed error envelope and Code extraction

Go path handling (path/filepath: Clean, Join, Rel, Ext, Dir, IsAbs for
unix) is embedded as executable Lean functions.  Machine integers that can
overflow (uint64 accumulators) are modelled as Nat with explicit % 2^64.
File systems are modelled as functions from path strings to optional
contents, or as explicit association structures where the code inspects
them.  External library calls that perform I/O (SHA-256 hashing, zip
deflate streams, random identifiers, clocks) enter the model as explicit
parameters or as fields of the input data.
-/
import Mathlib

namespace Zipfs

/-! ### Go error values (internal/errors/errors.go)

A Go error is either a typed zipfs `*Error` (code + message, possibly
wrapping a cause), a `fmt.Errorf("...: %w", err)` wrapper, or a plain
error with only a message.  `errCode` is `errors.Code`: it walks the
`Unwrap` chain and returns the code of the outermost typed error, or ""
if none is found. -/

inductive GoErr where
  | typed (code : String) (msg : String) : GoErr
  | wrap (msg : String) (inner : GoErr) : GoErr
  | plain (msg : String) : GoErr
deriving DecidableEq, Repr

def errCode : GoErr → String
  | .typed c _ => c
  | .wrap _ e => errCode e
  | .plain _ => ""

/-- `errors.Is(err, code)` -/
def errIs (e : GoErr) (code : String) : Bool := errCode e == code

deriving instance DecidableEq for Except

/-! ### Go path functions (path/filepath, unix rules)

Core `String.splitOn` / `String.startsWith` are reimplemented over the
character list so every definition evaluates by kernel reduction; the
semantics is the byte-wise Go semantics (all separators are ASCII).

`goClean` is `filepath.Clean`: split on `/`, drop empty and `.` elements,
resolve `..` against the element stack (a leading `..` survives for
relative paths and is dropped for rooted paths). -/

def splitCharsAux (sep : Char) : List Char → List Char → List (List Char)
  | [], acc => [acc.reverse]
  | c :: rest, acc =>
      if c = sep then acc.reverse :: splitCharsAux sep rest []
      else splitCharsAux sep rest (c :: acc)

/-- `strings.Split(s, "/")` / `s.splitOn "/"`. -/
def splitSlash (s : String) : List String :=
  (splitCharsAux '/' s.data []).map String.mk

/-- `strings.HasPrefix(s, pre)`. -/
def hasPrefixStr (s pre : String) : Bool := pre.data.isPrefixOf s.data

def cleanStep (rooted : Bool) (stack : List String) (e : String) : List String :=
  if e = "" ∨ e = "." then stack
  else if e = ".." then
    match stack with
    | top :: rest => if top = ".." then e :: stack else rest
    | [] => if rooted then [] else [e]
  else e :: stack

def goClean (p : String) : String :=
  if p = "" then "." else
  let rooted := hasPrefixStr p "/"
  let comps := ((splitSlash p).foldl (cleanStep rooted) []).reverse
  let out := String.intercalate "/" comps
  if rooted then (if out = "" then "/" else "/" ++ out)
  else (if out = "" then "." else out)

def goIsAbs (p : String) : Bool := hasPrefixStr p "/"

/-- `filepath.Join(a, b)`: join the non-empty parts with "/" then Clean;
all-empty input gives "". -/
def goJoin (a b : String) : String :=
  if a = "" then (if b = "" then "" else goClean b)
  else if b = "" then goClean a
  else goClean (a ++ "/" ++ b)

def pathElems (p : String) : List String :=
  (splitSlash p).filter (fun e => ¬ (e = "" ∨ e = "."))

def commonPrefixLen : List String → List String → Nat
  | a :: as, b :: bs => if a = b then commonPrefixLen as bs + 1 else 0
  | _, _ => 0

/-- `filepath.Rel(base, targ)`: Clean both; error when exactly one is
rooted or when the uncommon part of the base still contains `..`
(after Clean a relative path keeps `..` only as leading elements);
otherwise climb out of the remaining base elements and descend into the
remaining target elements. -/
def goRel (base targ : String) : Except GoErr String :=
  let b := goClean base
  let t := goClean targ
  if b = t then .ok "." else
  if (goIsAbs b) ≠ (goIsAbs t) then
    .error (.plain "Rel: cant make target relative to base")
  else
    let bs := pathElems b
    let ts := pathElems t
    let n := commonPrefixLen bs ts
    let brest := bs.drop n
    if brest.contains ".." then
      .error (.plain "Rel: cant make target relative to base")
    else
      let parts := List.replicate brest.length ".." ++ ts.drop n
      .ok (if parts = [] then "." else String.intercalate "/" parts)

/-- `filepath.Ext`: the suffix starting at the final dot in the final
slash-separated element; "" when there is no dot. -/
def goExtAux : List Char → List Char → Option String
  | [], _ => none
  | c :: rest, acc =>
      if c = '/' then none
      else if c = '.' then some (String.mk (c :: acc))
      else goExtAux rest (c :: acc)

def goExt (p : String) : String := (goExtAux p.toList.reverse []).getD ""

/-- `path[:len(path)-len(ext)]`, the stem in front of `goExt`. -/
def goStem (p : String) : String :=
  String.mk (p.toList.take (p.length - (goExt p).length))

/-- `filepath.Dir`: everything up to and including the final slash,
Cleaned; "." when there is no slash. -/
def goDir (p : String) : String :=
  goClean (String.mk (p.toList.reverse.dropWhile (fun c => c ≠ '/')).reverse)

/-! ### Input validators (internal/security, part_013) -/

def containsNul (s : String) : Bool := s.toList.contains (Char.ofNat 0)

/-- `security.ValidatePath(base, entryPath)` — the dual check used on
archive entry paths. -/
def validatePath (base entryPath : String) : Except GoErr Unit :=
  if entryPath = "" then .error (.plain "entry path cannot be empty")
  else if containsNul entryPath then
    .error (.plain "entry path contains null byte")
  else if goIsAbs entryPath then
    .error (.plain "entry path must be relative, got absolute path")
  else
    let cleanBase := goClean base
    let cleanEntry := goClean entryPath
    if hasPrefixStr cleanEntry ".." then
      .error (.plain "path traversal detected: attempts to escape base directory")
    else
      let target := goJoin cleanBase cleanEntry
      match goRel cleanBase target with
      | .error e => .error (.wrap "path resolution failed" e)
      | .ok rel =>
        if hasPrefixStr rel ".." then
          .error (.plain "path traversal detected: resolves outside base directory")
        else if ¬ hasPrefixStr target cleanBase then
          .error (.plain "path resolves outside base directory")
        else .ok ()

/-- `security.ValidateAllPaths` — fail-closed: the first invalid path
rejects the whole set. -/
def validateAllPaths (base : String) : List String → Except GoErr Unit
  | [] => .ok ()
  | p :: rest =>
    match validatePath base p with
    | .error e => .error (.wrap "validation failed for paths" e)
    | .ok _ => validateAllPaths base rest

/-- `security.ValidateRelativePath` — for user-supplied workspace paths. -/
def validateRelativePath (path : String) : Except GoErr Unit :=
  if path = "" then .error (.plain "path cannot be empty")
  else if goIsAbs path then
    .error (.plain "path must be relative, got absolute path")
  else if containsNul path then
    .error (.plain "path contains null byte")
  else if path.toList.any (fun r => r.toNat < 0x20 ∨ r.toNat = 0x7F) then
    .error (.plain "path contains control character")
  else if hasPrefixStr (goClean path) ".." then
    .error (.plain "path attempts to traverse outside workspace")
  else if ((splitSlash path).contains "..") then
    .error (.plain "path contains parent component")
  else .ok ()

/-! ### Archive model and bomb pre-scan (internal/security, part_012)

A parsed zip central directory entry.  `mode` is the unix bit pattern of
`f.Mode()` (permission bits plus 0o4000 setuid / 0o2000 setgid / 0o1000
sticky).  `data` is the decompressed stream: `none` models an entry whose
stream fails to open (corrupt deflate data), which in Go surfaces as an
error from `f.Open()` / `io.Copy`. -/

structure ZipEntry where
  name : String
  isDir : Bool
  mode : Nat
  uncompressedSize64 : Nat
  compressedSize64 : Nat
  data : Option (List Nat)
deriving DecidableEq, Repr

structure Limits where
  maxExtractedSize : Nat
  maxFileCount : Int
  maxCompressionRatio : ℚ
deriving DecidableEq, Repr

/-- `security.DefaultLimits()` -/
def defaultLimits : Limits :=
  { maxExtractedSize := 1 * 1024 * 1024 * 1024
    maxFileCount := 100000
    maxCompressionRatio := 100 }

structure BombCheckResult where
  reason : String
  totalUncompressedSize : Nat
  fileCount : Int
  maxCompressionRatio : ℚ
  isSafe : Bool
deriving DecidableEq, Repr

/-- The accumulation pass of `CheckZipBombFromReader`: total declared
uncompressed size over non-directory entries (uint64 wrap-around made
explicit) and the maximal per-entry compression ratio (compressed > 0;
float64 division modelled exactly over ℚ). -/
def bombTotals (entries : List ZipEntry) : Nat × ℚ :=
  entries.foldl
    (fun acc f =>
      if f.isDir then acc
      else
        let total := (acc.1 + f.uncompressedSize64) % 2 ^ 64
        let ratio : ℚ :=
          if 0 < f.compressedSize64 then
            mkRat (f.uncompressedSize64 : Int) f.compressedSize64
          else 0
        (total, if acc.2 < ratio then ratio else acc.2))
    (0, 0)

/-- `security.CheckZipBombFromReader` -/
def checkZipBomb (entries : List ZipEntry) (L : Limits) : BombCheckResult :=
  let t := bombTotals entries
  let base : BombCheckResult :=
    { reason := ""
      totalUncompressedSize := t.1
      fileCount := (entries.length : Int)
      maxCompressionRatio := t.2
      isSafe := true }
  if t.1 > L.maxExtractedSize then
    { base with isSafe := false, reason := "total uncompressed size exceeds limit" }
  else if (entries.length : Int) > L.maxFileCount then
    { base with isSafe := false, reason := "file count exceeds limit" }
  else if t.2 > L.maxCompressionRatio then
    { base with isSafe := false, reason := "compression ratio exceeds limit" }
  else base

/-! ### Extractor (core Extract / extractFile, embedded from the source in
internal/core)

The destination directory tree: files carry (content, creation mode as
passed to `os.OpenFile`), directories carry the mode passed to
`os.MkdirAll`.  `MkdirAll` on an existing directory is a no-op. -/

structure XFs where
  files : String → Option (List Nat × Nat)
  dirs : String → Option Nat

def xfsEmpty : XFs := { files := fun _ => none, dirs := fun _ => none }

def xWriteFile (p : String) (content : List Nat) (mode : Nat) (fs : XFs) : XFs :=
  { fs with files := fun q => if q = p then some (content, mode) else fs.files q }

def xMkdirAll (p : String) (mode : Nat) (fs : XFs) : XFs :=
  match fs.dirs p with
  | some _ => fs
  | none => { fs with dirs := fun q => if q = p then some mode else fs.dirs q }

/-- `extractFile(f, destDir, ...)`: returns the updated tree and either an
error or (counted-as-file?, bytes written). -/
def extractFile (destDir : String) (f : ZipEntry) (fs : XFs) :
    XFs × Except GoErr (Bool × Nat) :=
  let destPath := goJoin destDir f.name
  if f.isDir then
    (xMkdirAll destPath f.mode fs, .ok (false, 0))
  else
    let fs1 := xMkdirAll (goDir destPath) 0o755 fs
    match f.data with
    | none => (fs1, .error (.plain "failed to open file in archive"))
    | some bytes => (xWriteFile destPath bytes f.mode fs1, .ok (true, bytes.length))

/-- The per-entry loop of `Extract`; `fileCount` and `totalSize` (uint64,
wrap made explicit) accumulate across entries and are returned alongside
the error, exactly as in the Go source. -/
def extractLoop (destDir : String) :
    List ZipEntry → XFs → Nat → Nat → XFs × Nat × Nat × Option GoErr
  | [], fs, count, total => (fs, count, total, none)
  | f :: rest, fs, count, total =>
    match extractFile destDir f fs with
    | (fs2, .error e) => (fs2, count, total, some (.wrap "failed to extract entry" e))
    | (fs2, .ok (counted, written)) =>
        extractLoop destDir rest fs2 (if counted then count + 1 else count)
          ((total + written) % 2 ^ 64)

/-- `core.Extract(zipPath, destDir, limits)`: bomb pre-scan, fail-closed
path validation of every entry name, then the extraction loop. -/
def extract (ar : List ZipEntry) (destDir : String) (L : Limits) (fs0 : XFs) :
    XFs × Nat × Nat × Option GoErr :=
  let bomb := checkZipBomb ar L
  if ¬ bomb.isSafe then
    (fs0, 0, 0, some (.typed "ZIP_BOMB_DETECTED" bomb.reason))
  else
    match validateAllPaths destDir (ar.map (fun f => f.name)) with
    | .error e => (fs0, 0, 0, some (.wrap "path validation failed" e))
    | .ok _ => extractLoop destDir ar fs0 0 0

/-! ### Configuration (part_006) -/

structure SecurityConfig where
  maxExtractedSizeBytes : Nat
  maxFileCount : Int
  maxCompressionRatio : ℚ
  maxTotalDiskBytes : Nat
  maxSessions : Int
  allowSymlinks : Bool
  regexTimeoutMS : Int
deriving DecidableEq, Repr

structure DefaultsConfig where
  backupRotationDepth : Int
deriving DecidableEq, Repr

structure Config where
  security : SecurityConfig
  defaults : DefaultsConfig
deriving DecidableEq, Repr

/-- `core.DefaultConfig()` -/
def defaultConfig : Config :=
  { security :=
      { maxExtractedSizeBytes := 1 * 1024 * 1024 * 1024
        maxFileCount := 100000
        maxCompressionRatio := 100
        maxTotalDiskBytes := 10 * 1024 * 1024 * 1024
        maxSessions := 32
        allowSymlinks := false
        regexTimeoutMS := 5000 }
    defaults := { backupRotationDepth := 3 } }

/-- `Config.ToSecurityLimits()` -/
def toSecurityLimits (c : Config) : Limits :=
  { maxExtractedSize := c.security.maxExtractedSizeBytes
    maxFileCount := c.security.maxFileCount
    maxCompressionRatio := c.security.maxCompressionRatio }

/-! ### Session creation (part_009 CreateSession)

I/O-dependent inputs appear as fields: the bytes of the source archive
(`none` when `os.Stat` fails), the parsed central directory (`none` when
the file is not a valid zip), the outcome of the `uuid.Parse(name)`
library call, the outcome of the collision lookup, and the current
session count.  The workspace directory tree created by the call is the
output `Option WorkspaceFs`: `none` means the workspace directory does
not exist on disk when the call returns. -/

structure OpenInput where
  sourceBytes : Option (List Nat)
  archive : Option (List ZipEntry)
  name : String
  nameIsUUID : Bool
  nameExists : Bool
  sessionCount : Nat
  contentsDir : String

structure WorkspaceFs where
  originalZip : Option (List Nat)
  contents : XFs

structure SessionOut where
  zipHash : String
  fileCount : Nat
  extractedSize : Nat
  state : String
deriving DecidableEq, Repr

/-- `security.ValidateSessionName` -/
def isNameChar (c : Char) : Bool :=
  (('a' ≤ c ∧ c ≤ 'z') ∨ ('A' ≤ c ∧ c ≤ 'Z') ∨ ('0' ≤ c ∧ c ≤ '9')
    ∨ c = '_' ∨ c = '-' : Prop)

def validateSessionName (name : String) : Except GoErr Unit :=
  if name = "" then .error (.plain "session name cannot be empty")
  else if name.length > 64 then
    .error (.plain "session name exceeds maximum length")
  else if ¬ name.data.all isNameChar then
    .error (.plain "session name must contain only allowed characters")
  else .ok ()

/-- `core.CreateSession(sourcePath, name, cfg)` -/
def createSession (inp : OpenInput) (cfg : Config)
    (hashFn : List Nat → String) : Option WorkspaceFs × Except GoErr SessionOut :=
  match inp.sourceBytes with
  | none => (none, .error (.typed "ZIP_NOT_FOUND" "zip file not found or not readable"))
  | some src =>
    let nameCheck : Except GoErr Unit :=
      if inp.name = "" then .ok ()
      else
        match validateSessionName inp.name with
        | .error e => .error (.wrap "invalid session name" e)
        | .ok _ =>
          if inp.nameIsUUID then .error (.plain "session name cannot be a valid UUID")
          else if inp.nameExists then .error (.typed "NAME_COLLISION" "name already used")
          else .ok ()
    match nameCheck with
    | .error e => (none, .error e)
    | .ok _ =>
      if (inp.sessionCount : Int) ≥ cfg.security.maxSessions then
        (none, .error (.typed "LIMIT_EXCEEDED" "max sessions"))
      else
        match inp.archive with
        | none => (none, .error (.typed "ZIP_INVALID" "file is not a valid zip archive"))
        | some ar =>
          let bomb := checkZipBomb ar (toSecurityLimits cfg)
          if ¬ bomb.isSafe then
            (none, .error (.typed "ZIP_BOMB_DETECTED" bomb.reason))
          else
            let hash := hashFn src
            match extract ar inp.contentsDir (toSecurityLimits cfg) xfsEmpty with
            | (_, _, _, some e) =>
                (none, .error (.wrap "failed to extract zip" e))
            | (xfs, fc, ts, none) =>
                (some { originalZip := some src, contents := xfs },
                 .ok { zipHash := hash, fileCount := fc, extractedSize := ts,
                       state := "open" })

/-! ### Session store: GetSession / ListSessions / ResolveSession
(part_009)

A workspace directory entry: its directory name and the session metadata
loaded from its `metadata.json` (`none` when loading fails, which the Go
loops skip with `continue`).  Only the fields the resolver consults are
carried. -/

structure SessionMeta where
  id : String
  name : String
deriving DecidableEq, Repr

structure WsEntry where
  dirName : String
  meta : Option SessionMeta
deriving DecidableEq, Repr

/-- The directory-scan loop of `GetSession`: exact directory-name match
returns at once; else exact id match returns at once; else a prefix of
the id (at least 4 characters) accumulates into `matches`. -/
def getSessionLoop (id : String) : List WsEntry → List SessionMeta →
    Except GoErr SessionMeta
  | [], ms =>
    match ms with
    | [m] => .ok m
    | [] => .error (.typed "SESSION_NOT_FOUND" id)
    | _ :: _ :: _ => .error (.typed "AMBIGUOUS_SESSION" "multiple sessions match")
  | e :: rest, ms =>
    if e.dirName = id then
      match e.meta with
      | none => getSessionLoop id rest ms
      | some s => .ok s
    else
      match e.meta with
      | none => getSessionLoop id rest ms
      | some s =>
        if s.id = id then .ok s
        else if 4 ≤ id.length ∧ hasPrefixStr s.id id then
          getSessionLoop id rest (ms ++ [s])
        else getSessionLoop id rest ms

/-- `core.GetSession(identifier)` over the entries of the workspaces
directory (a missing workspaces root behaves as the empty listing). -/
def getSession (entries : List WsEntry) (id : String) : Except GoErr SessionMeta :=
  if id = "" then .error (.plain "identifier cannot be empty")
  else getSessionLoop id entries []

/-- `core.ListSessions()`: loadable sessions in directory order. -/
def listSessions (entries : List WsEntry) : List SessionMeta :=
  entries.filterMap (fun e => e.meta)

/-- `core.ResolveSession(identifier)` -/
def resolveSession (entries : List WsEntry) (id : String) :
    Except GoErr SessionMeta :=
  if id ≠ "" then getSession entries id
  else
    match listSessions entries with
    | [] => .error (.typed "NO_SESSIONS" "no sessions are open")
    | [s] => .ok s
    | _ :: _ :: _ => .error (.typed "AMBIGUOUS_SESSION" "multiple sessions are open")

/-! ### Configuration loading and environment overrides (part_006,
paths.go DataDir)

The process environment is a map from variable name to optional value
(`os.LookupEnv`); `os.Getenv` returns "" for unset variables. -/

abbrev Env : Type := String → Option String

def getenv (env : Env) (name : String) : String := (env name).getD ""

def digitVal (c : Char) : Option Nat :=
  if '0' ≤ c ∧ c ≤ '9' then some (c.toNat - 48) else none

def digitsValAux : Nat → List Char → Option Nat
  | acc, [] => some acc
  | acc, c :: rest =>
    match digitVal c with
    | none => none
    | some v => digitsValAux (acc * 10 + v) rest

/-- The decimal value of a non-empty all-digit string. -/
def digitsVal (cs : List Char) : Option Nat :=
  match cs with
  | [] => none
  | _ :: _ => digitsValAux 0 cs

/-- `strconv.ParseUint(s, 10, 64)`: non-empty decimal digits, value
below 2^64. -/
def parseUint64 (s : String) : Option Nat :=
  match digitsVal s.data with
  | none => none
  | some v => if v < 2 ^ 64 then some v else none

/-- `strconv.Atoi(s)`: optional sign, non-empty decimal digits, value in
the int64 range. -/
def parseAtoi (s : String) : Option Int :=
  let digitsPart : List Char → Bool → Option Int := fun cs neg =>
    match digitsVal cs with
    | none => none
    | some v =>
      let i : Int := if neg then -(v : Int) else (v : Int)
      if -(2 ^ 63) ≤ i ∧ i < 2 ^ 63 then some i else none
  match s.data with
  | [] => none
  | c :: rest =>
    if c = '-' then digitsPart rest true
    else if c = '+' then digitsPart rest false
    else digitsPart (c :: rest) false

/-- `core.applyEnvOverrides(cfg)`: exactly three variables are honoured —
max extracted size, max sessions, max file count. -/
def applyEnvOverrides (cfg : Config) (env : Env) : Except GoErr Config :=
  let afterSize : Except GoErr Config :=
    match env "ZIPFS_MAX_EXTRACTED_SIZE" with
    | none => .ok cfg
    | some v =>
      match parseUint64 v with
      | none => .error (.plain "invalid ZIPFS_MAX_EXTRACTED_SIZE")
      | some n => .ok { cfg with security.maxExtractedSizeBytes := n }
  match afterSize with
  | .error e => .error e
  | .ok cfg1 =>
    let afterSessions : Except GoErr Config :=
      match env "ZIPFS_MAX_SESSIONS" with
      | none => .ok cfg1
      | some v =>
        match parseAtoi v with
        | none => .error (.plain "invalid ZIPFS_MAX_SESSIONS")
        | some n => .ok { cfg1 with security.maxSessions := n }
    match afterSessions with
    | .error e => .error e
    | .ok cfg2 =>
      match env "ZIPFS_MAX_FILE_COUNT" with
      | none => .ok cfg2
      | some v =>
        match parseAtoi v with
        | none => .error (.plain "invalid ZIPFS_MAX_FILE_COUNT")
        | some n => .ok { cfg2 with security.maxFileCount := n }

/-- `core.DataDir()`: `$ZIPFS_DATA_DIR` override, else
`$XDG_DATA_HOME/zipfs`, else `~/.local/share/zipfs`; `home` is the
outcome of `os.UserHomeDir()`. -/
def dataDir (env : Env) (home : Except GoErr String) : Except GoErr String :=
  if getenv env "ZIPFS_DATA_DIR" ≠ "" then .ok (getenv env "ZIPFS_DATA_DIR")
  else if getenv env "XDG_DATA_HOME" ≠ "" then
    .ok (goJoin (getenv env "XDG_DATA_HOME") "zipfs")
  else
    match home with
    | .error e => .error (.wrap "failed to get user home directory" e)
    | .ok h => .ok (goJoin h ".local/share/zipfs")

/-! ### Directory listing (scanner.go ListFiles)

`stat`, the immediate-children reader and the recursive walker are the
I/O surface of the workspace contents tree, passed as functions. -/

structure StatInfo where
  isDir : Bool
  size : Nat
  mtimeUnix : Int
deriving DecidableEq, Repr

structure FileEntry where
  name : String
  typ : String
  sizeBytes : Nat
  modifiedAt : Int
deriving DecidableEq, Repr

/-- `filepath.Base` -/
def goBase (p : String) : String :=
  if p = "" then "."
  else
    match (splitSlash (goClean p)).getLast? with
    | some e => if e = "" then "/" else e
    | none => "."

def entryOf (n : String) (i : StatInfo) : FileEntry :=
  { name := n, typ := if i.isDir then "dir" else "file"
    sizeBytes := i.size, modifiedAt := i.mtimeUnix }

/-- `core.ListFiles(contentsDir, relativePath, recursive)` -/
def listFiles (stat : String → Option StatInfo)
    (readDirFn : String → List (String × StatInfo))
    (walkFn : String → List (String × StatInfo))
    (contentsDir relativePath : String) (recursive : Bool) :
    Except GoErr (List FileEntry) :=
  let pre : Except GoErr Unit :=
    if relativePath ≠ "" ∧ relativePath ≠ "." then
      match validateRelativePath relativePath with
      | .error e => .error (.wrap "invalid path" e)
      | .ok _ => .ok ()
    else .ok ()
  match pre with
  | .error e => .error e
  | .ok _ =>
    let targetPath := goJoin contentsDir relativePath
    match validatePath contentsDir relativePath with
    | .error _ => .error (.typed "PATH_TRAVERSAL" relativePath)
    | .ok _ =>
      match stat targetPath with
      | none => .error (.typed "PATH_NOT_FOUND" relativePath)
      | some info =>
        if ¬ recursive then
          if ¬ info.isDir then
            .ok [entryOf (goBase targetPath) info]
          else
            .ok ((readDirFn targetPath).map fun e => entryOf e.1 e.2)
        else
          .ok ((walkFn targetPath).map fun e => entryOf e.1 e.2)

/-! ### File locks (part_008)

The flock state of one lock file: the open descriptors holding the lock
(descriptor, shared?).  `acquire` polls until timeout; with no concurrent
release in the model, an incompatible lock times out with `LOCKED`. -/

structure LockSys where
  holders : List (Nat × Bool)
  nextFd : Nat
deriving DecidableEq, Repr

structure LockHandle where
  file : Option Nat
  path : String
  isShared : Bool
deriving DecidableEq, Repr

/-- `acquire(path, timeout, shared)` -/
def lockAcquire (sys : LockSys) (path : String) (shared : Bool) :
    LockSys × Except GoErr LockHandle :=
  let fd := sys.nextFd
  let compatible := if shared then sys.holders.all (fun h => h.2) else sys.holders.isEmpty
  if compatible then
    ({ holders := sys.holders ++ [(fd, shared)], nextFd := fd + 1 },
     .ok { file := some fd, path := path, isShared := shared })
  else
    ({ sys with nextFd := fd + 1 }, .error (.typed "LOCKED" path))

/-- `Lock.Release()`: unlock (drop the holder), close the descriptor, and
mark the handle released; a second call sees `l.file == nil`. -/
def lockRelease (sys : LockSys) (l : LockHandle) :
    LockSys × LockHandle × Except GoErr Unit :=
  match l.file with
  | none => (sys, l, .error (.plain "lock already released"))
  | some fd =>
      ({ sys with holders := sys.holders.filter (fun h => h.1 ≠ fd) },
       { l with file := none }, .ok ())

/-! ### Concrete inputs used by the closed evaluations -/

/-- An entry whose central directory declares 10 bytes but whose stream
decompresses to 100 bytes (a manipulated central directory). -/
def overDeclaredEntry : ZipEntry :=
  { name := "a.txt", isDir := false, mode := 0o644
    uncompressedSize64 := 10, compressedSize64 := 10
    data := some (List.replicate 100 7) }

/-- An entry recorded with mode `0o4777` (setuid + world-writable). -/
def setuidEntry : ZipEntry :=
  { name := "s.bin", isDir := false, mode := 0o4777
    uncompressedSize64 := 1, compressedSize64 := 1
    data := some [1] }

/-- A well-formed first entry. -/
def okEntry : ZipEntry :=
  { name := "ok.txt", isDir := false, mode := 0o644
    uncompressedSize64 := 1, compressedSize64 := 1
    data := some [120] }

/-- An entry whose deflate stream cannot be opened. -/
def corruptEntry : ZipEntry :=
  { name := "bad.txt", isDir := false, mode := 0o644
    uncompressedSize64 := 1, compressedSize64 := 1
    data := none }

/-- The zip-slip entry of scenario S2. -/
def escapeEntry : ZipEntry :=
  { name := "../escape", isDir := false, mode := 0o644
    uncompressedSize64 := 1, compressedSize64 := 1
    data := some [121] }

/-- Opening an archive `[ok.txt, ../escape]` (scenario S2). -/
def slipOpenInput : OpenInput :=
  { sourceBytes := some [80, 75, 3, 4]
    archive := some [okEntry, escapeEntry]
    name := ""
    nameIsUUID := false
    nameExists := false
    sessionCount := 0
    contentsDir := "/data/workspaces/s1/contents" }

/-- An environment that sets only a would-be symlink-policy variable. -/
def symlinkEnv : Env :=
  fun n => if n = "ZIPFS_ALLOW_SYMLINKS" then some "true" else none

/-! ### Decimal digits of a natural number

`digsSpec n` is the digit list produced by `Nat.toDigitsCore`, in its
fuel-free form; it gives `Nat.repr` its round-trip with `parseDig` and
hence injectivity, which the backup-name reasoning needs. -/

def digsSpec (n : Nat) : List Char :=
  if h : n / 10 = 0 then [Nat.digitChar (n % 10)]
  else digsSpec (n / 10) ++ [Nat.digitChar (n % 10)]
  decreasing_by
    exact Nat.div_lt_self (Nat.pos_of_ne_zero (fun hz => h (by simp [hz]))) (by omega)

def parseDig (cs : List Char) : Nat :=
  cs.foldl (fun a c => a * 10 + (c.toNat - 48)) 0

end Zipfs

namespace Zipfs

/-! ### The source directory and backup rotation (part_005)

The directory holding the source archive, its backups and the sync temp
file is a map from file name to contents. -/

abbrev Fs : Type := String → Option (List Nat)

def fsEmpty : Fs := fun _ => none

def fsWrite (p : String) (c : List Nat) (fs : Fs) : Fs :=
  fun q => if q = p then some c else fs q

/-- `os.Remove` -/
def fsRemove (p : String) (fs : Fs) : Fs :=
  fun q => if q = p then none else fs q

/-- `os.Rename(old, nw)` on an existing `old`. -/
def fsRename (old nw : String) (fs : Fs) : Fs :=
  fun q => if q = nw then fs old else if q = old then none else fs q

/-- The backup name produced inside the rotation loop of `RotateBackups`:
`fmt.Sprintf("%s.bak.%d%s", base, i, ext)`. -/
def loopBakName (base ext : String) (i : Nat) : String :=
  base ++ ".bak." ++ Nat.repr i ++ ext

/-- One iteration of the rotation loop: `os.Remove(newPath)` then, when
the old generation exists, `os.Rename(oldPath, newPath)`. -/
def rotateStep (base ext : String) (fs : Fs) (i : Nat) : Fs :=
  let old := loopBakName base ext (i - 1)
  let nw := loopBakName base ext i
  let fs1 := fsRemove nw fs
  match fs1 old with
  | some _ => fsRename old nw fs1
  | none => fs1

/-- The loop indices `maxDepth, maxDepth-1, ..., 2` of
`for i := maxDepth; i >= 2; i--`. -/
def countdown (maxDepth : Nat) : List Nat := (List.range' 2 (maxDepth - 1)).reverse

/-- `core.RotateBackups(sourcePath, maxDepth)`: rotate `…bak.(i-1)` onto
`…bak.i` for `i` from `maxDepth` down to `2`, then `…bak` onto `…bak.2`,
then the source onto `…bak`; the final rename fails when the source is
missing.  Returns the updated directory and the backup path. -/
def rotateBackups (fs : Fs) (sourcePath : String) (maxDepth : Nat) :
    Except GoErr (Fs × String) :=
  let ext := goExt sourcePath
  let base := goStem sourcePath
  let fs1 := (countdown maxDepth).foldl (rotateStep base ext) fs
  let bak := base ++ ".bak" ++ ext
  let bak2 := base ++ ".bak.2" ++ ext
  let fs2 :=
    match fs1 bak with
    | some _ => fsRename bak bak2 (fsRemove bak2 fs1)
    | none => fs1
  match fs2 sourcePath with
  | some _ => .ok (fsRename sourcePath bak fs2, bak)
  | none => .error (.plain "failed to create backup")

/-! ### Sync (part_005 Sync)

The session record fields that `Sync` reads and writes, and the state of
the world it acts on.  Hashing (`ComputeZipHash`, SHA-256), the packed
archive produced by `Repack` from the workspace contents, and the random
temp-file name from `os.CreateTemp` are parameters.  Lock acquisition is
modelled as succeeding (the model is single-threaded); `checkWritable`
of the source directory is the `writable` flag. -/

structure SessionRec where
  state : String
  zipHashSHA256 : String
  sourcePath : String
  lastSyncedAt : Option Nat
deriving DecidableEq, Repr

structure SyncOut where
  backupPath : String
  newZipSizeBytes : Nat
deriving DecidableEq, Repr

structure SyncEnv where
  hashFn : List Nat → String
  tempName : String
  packBytes : List Nat
  writable : Bool
  now : Nat

/-- `core.Sync(session, force, cfg)` — returns the persisted session
record, the source directory contents, and the outcome. -/
def sync (sess : SessionRec) (force : Bool) (depth : Nat) (fs : Fs)
    (env : SyncEnv) : SessionRec × Fs × Except GoErr SyncOut :=
  if sess.state ≠ "open" then
    (sess, fs, .error (.plain "session state is not open"))
  else
    -- state := "syncing" is persisted, then restored to "open" on error
    match fs sess.sourcePath with
    | none =>
        ({ sess with state := "open" }, fs,
         .error (.plain "source zip no longer exists"))
    | some srcBytes =>
      if ¬ env.writable then
        ({ sess with state := "open" }, fs,
         .error (.plain "source directory not writable"))
      else
        let currentHash := env.hashFn srcBytes
        if currentHash ≠ sess.zipHashSHA256 ∧ ¬ force then
          ({ sess with state := "open" }, fs,
           .error (.typed "CONFLICT_DETECTED" "source zip has been modified externally"))
        else
          -- os.CreateTemp then Repack into the temp file
          let fs1 := fsWrite env.tempName env.packBytes (fsWrite env.tempName [] fs)
          match rotateBackups fs1 sess.sourcePath depth with
          | .error e =>
              ({ sess with state := "open" }, fsRemove env.tempName fs1,
               .error (.wrap "failed to rotate backups" e))
          | .ok (fs2, backupPath) =>
            match fs2 env.tempName with
            | none =>
                ({ sess with state := "open" }, fsRemove env.tempName fs2,
                 .error (.plain "failed to rename temp file to source"))
            | some tempBytes =>
              let fs3 := fsRename env.tempName sess.sourcePath fs2
              let newHash := env.hashFn tempBytes
              ({ sess with
                   state := "open"
                   zipHashSHA256 := newHash
                   lastSyncedAt := some env.now }, fs3,
               .ok { backupPath := backupPath,
                     newZipSizeBytes := tempBytes.length })

end Zipfs

namespace Zipfs

/-! Concrete states used by witnesses. -/

def c5Sess : SessionRec :=
  { state := "open", zipHashSHA256 := "aaaa", sourcePath := "src.zip"
    lastSyncedAt := none }

def c5Fs : Fs := fun q => if q = "src.zip" then some [1, 2] else none

def c5Env : SyncEnv :=
  { hashFn := fun _ => "bbbb", tempName := ".src.zip.zipfs-tmp-1"
    packBytes := [9], writable := true, now := 42 }

def c9Stat : String → Option StatInfo :=
  fun q => if q = "/data/ws/s1/contents" then some { isDir := true, size := 0, mtimeUnix := 5 }
           else none

def c9ReadDir : String → List (String × StatInfo) :=
  fun q => if q = "/data/ws/s1/contents" then
             [("a.txt", { isDir := false, size := 3, mtimeUnix := 7 })]
           else []

def c10Sys : LockSys := { holders := [(0, true)], nextFd := 1 }

def c8Env : Env :=
  fun n =>
    if n = "ZIPFS_MAX_EXTRACTED_SIZE" then some "3221225472"
    else if n = "ZIPFS_MAX_SESSIONS" then some "128"
    else if n = "ZIPFS_MAX_FILE_COUNT" then some "500000"
    else if n = "ZIPFS_DATA_DIR" then some "/custom/data"
    else none


/-- The inner validation error for the `../escape` style archive. -/
def c4Err : GoErr :=
  .wrap "failed to extract zip"
    (.wrap "path validation failed"
      (.wrap "validation failed for paths"
        (.plain "path traversal detected: attempts to escape base directory")))

/-- The terminal step of the `GetSession` scan over the accumulated
prefix matches. -/
def loopFinish (id : String) : List SessionMeta → Except GoErr SessionMeta
  | [m] => .ok m
  | [] => .error (.typed "SESSION_NOT_FOUND" id)
  | _ :: _ :: _ => .error (.typed "AMBIGUOUS_SESSION" "multiple sessions match")

/-- The sessions the scan accumulates: loadable sessions whose id has the
(at least 4 characters long) identifier as a prefix. -/
def prefAccum (entries : List WsEntry) (id : String) : List SessionMeta :=
  entries.filterMap (fun e => e.meta.bind (fun s =>
    if 4 ≤ id.length ∧ hasPrefixStr s.id id then some s else none))

def demoS1 : SessionMeta := { id := "11112222-aaaa", name := "alpha" }

def demoS2 : SessionMeta := { id := "33334444-bbbb", name := "" }

def demoEntries : List WsEntry :=
  [ { dirName := "alpha", meta := some demoS1 },
    { dirName := "33334444-bbbb", meta := some demoS2 } ]

/-- Backup generation names: generation 1 is `stem.bak.ext`, generation
k ≥ 2 is `stem.bak.k.ext` (§6 backup filenames, as produced by
RotateBackups). -/
def bakName (base ext : String) (k : Nat) : String :=
  if k = 1 then base ++ ".bak" ++ ext else base ++ ".bak." ++ Nat.repr k ++ ext

/-- N successive syncs of the rotation-relevant part of the world: start
from a directory holding only the source (contents `c 0`); each sync
rotates the backups and then the atomic rename materialises the freshly
packed archive (`c (i+1)`) at the source path. -/
def syncIterFs (src : String) (depth : Nat) (c : Nat → List Nat) : Nat → Fs
  | 0 => fsWrite src (c 0) fsEmpty
  | n + 1 =>
    match rotateBackups (syncIterFs src depth c n) src depth with
    | .ok (fs, _) => fsWrite src (c (n + 1)) fs
    | .error _ => fsEmpty

/-- The state of the source directory after n syncs: the source holds
`c n`, backup generation k (1 ≤ k ≤ min n depth) holds `c (n - k)`, and
nothing else exists. -/
def SyncInv (src : String) (depth : Nat) (c : Nat → List Nat) (n : Nat) (fs : Fs) : Prop :=
  fs src = some (c n) ∧
  (∀ k, 1 ≤ k → k ≤ min n depth →
    fs (bakName (goStem src) (goExt src) k) = some (c (n - k))) ∧
  (∀ k, 1 ≤ k → min n depth < k →
    fs (bakName (goStem src) (goExt src) k) = none) ∧
  (∀ name, name ≠ src →
    (∀ k, 1 ≤ k → name ≠ bakName (goStem src) (goExt src) k) → fs name = none)

/-! ## Helper lemmas -/

theorem toDigitsCore_eq_digsSpec :
    ∀ n f ds, n ≤ f → Nat.toDigitsCore 10 (f + 1) n ds = digsSpec n ++ ds := by
  intro n
  induction n using Nat.strong_induction_on with
  | _ n ih =>
    intro f ds hnf
    show (if n / 10 = 0 then Nat.digitChar (n % 10) :: ds
          else Nat.toDigitsCore 10 f (n / 10) (Nat.digitChar (n % 10) :: ds)) = _
    by_cases h : n / 10 = 0
    · rw [if_pos h, digsSpec, dif_pos h]
      simp
    · rw [if_neg h, digsSpec, dif_neg h]
      have hn10 : n / 10 < n :=
        Nat.div_lt_self (Nat.pos_of_ne_zero (fun hz => h (by simp [hz]))) (by omega)
      obtain ⟨f2, rfl⟩ : ∃ f2, f = f2 + 1 := ⟨f - 1, by omega⟩
      rw [ih (n / 10) hn10 f2 (Nat.digitChar (n % 10) :: ds) (by omega)]
      simp

theorem digitChar_toNat (d : Nat) (h : d < 10) : (Nat.digitChar d).toNat = 48 + d := by
  interval_cases d <;> decide

theorem parseDig_append (xs : List Char) (c : Char) :
    parseDig (xs ++ [c]) = parseDig xs * 10 + (c.toNat - 48) := by
  simp [parseDig, List.foldl_append]

theorem parseDig_digsSpec (n : Nat) : parseDig (digsSpec n) = n := by
  induction n using Nat.strong_induction_on with
  | _ n ih =>
    rw [digsSpec]
    by_cases h : n / 10 = 0
    · rw [dif_pos h]
      have hlt : n % 10 < 10 := Nat.mod_lt n (by omega)
      simp only [parseDig, List.foldl_cons, List.foldl_nil, Nat.zero_mul, Nat.zero_add]
      rw [digitChar_toNat _ hlt]
      omega
    · rw [dif_neg h]
      have hn10 : n / 10 < n :=
        Nat.div_lt_self (Nat.pos_of_ne_zero (fun hz => h (by simp [hz]))) (by omega)
      rw [parseDig_append, ih (n / 10) hn10, digitChar_toNat _ (Nat.mod_lt n (by omega))]
      omega

theorem natRepr_eq_digsSpec (n : Nat) : Nat.repr n = (digsSpec n).asString := by
  show (Nat.toDigitsCore 10 (n + 1) n []).asString = _
  rw [toDigitsCore_eq_digsSpec n n [] (Nat.le_refl n)]
  simp

theorem natRepr_injective : Function.Injective Nat.repr := by
  intro m n h
  rw [natRepr_eq_digsSpec, natRepr_eq_digsSpec] at h
  have hd : digsSpec m = digsSpec n := by
    have := congrArg String.data h
    simpa [List.asString] using this
  have := congrArg parseDig hd
  rwa [parseDig_digsSpec, parseDig_digsSpec] at this

theorem digsSpec_ne_nil (n : Nat) : digsSpec n ≠ [] := by
  rw [digsSpec]
  by_cases h : n / 10 = 0
  · rw [dif_pos h]; simp
  · rw [dif_neg h]; simp

theorem natRepr_length_pos (n : Nat) : 0 < (Nat.repr n).length := by
  rw [natRepr_eq_digsSpec]
  have := digsSpec_ne_nil n
  cases hd : digsSpec n with
  | nil => exact absurd hd this
  | cons c cs => simp [List.asString, String.length, hd]

end Zipfs

namespace Zipfs

/-! ## Claim C1 -/

/-- C1: the spec requires that bytes actually written for an entry never
exceed its declared uncompressed size by more than 10% and that the
cumulative written bytes stay under the limit, any violation aborting
with ZIP_BOMB_DETECTED.  The extraction loop performs no such runtime
check: an entry declaring 10 bytes whose stream decompresses to 100
bytes (ten times the declared size) extracts successfully, all 100
bytes land on disk, and no error is reported. -/
theorem C1_runtime_size_check_missing :
    (extract [overDeclaredEntry] "/ws" defaultLimits xfsEmpty).2.2.2 = none ∧
    (extract [overDeclaredEntry] "/ws" defaultLimits xfsEmpty).2.2.1 = 100 ∧
    (extract [overDeclaredEntry] "/ws" defaultLimits xfsEmpty).1.files "/ws/a.txt"
      = some (List.replicate 100 7, 0o644) ∧
    100 * 10 > overDeclaredEntry.uncompressedSize64 * 11 := by
  refine ⟨by decide, by decide, by decide, by decide⟩

/-! ## Claim C3 -/

/-- C3: the spec requires extracted file modes to be the archive mode
masked to at most 0o755 with the set-id bits cleared.  `extractFile`
passes `f.Mode()` through unmasked: an entry recorded with mode 0o4777
is created with mode 0o4777, which exceeds 0o755 and retains the setuid
bit. -/
theorem C3_mode_not_masked :
    (extract [setuidEntry] "/ws" defaultLimits xfsEmpty).1.files "/ws/s.bin"
      = some ([1], 0o4777) ∧
    (extract [setuidEntry] "/ws" defaultLimits xfsEmpty).2.2.2 = none ∧
    0o4777 &&& 0o6000 ≠ 0 ∧ ¬ (0o4777 ≤ 0o755) := by
  refine ⟨by decide, by decide, by decide, by decide⟩

/-! ## Claim C5 -/

/-- C5: when the stored hash differs from the hash of the current source
and force is false, Sync returns CONFLICT_DETECTED and has no other side
effects: the source directory contents (source file, backups, temp files)
are exactly as before, and the persisted session record is unchanged with
state "open" (the transient "syncing" state is restored before
returning). -/
theorem C5_conflict_detected_no_side_effects
    (sess : SessionRec) (fs : Fs) (env : SyncEnv) (depth : Nat) (b : List Nat)
    (hopen : sess.state = "open")
    (hsrc : fs sess.sourcePath = some b)
    (hw : env.writable = true)
    (hdiff : env.hashFn b ≠ sess.zipHashSHA256) :
    sync sess false depth fs env =
      (sess, fs,
       .error (.typed "CONFLICT_DETECTED" "source zip has been modified externally")) := by
  have hsess : { sess with state := "open" } = sess := by
    cases sess
    simp_all
  unfold sync
  rw [hopen, hsrc]
  simp [hw, hdiff, hsess]

/-- Witness for C5 at a concrete open session whose source was replaced
by bytes hashing to a different value. -/
theorem C5_conflict_detected_no_side_effects_witness :
    sync c5Sess false 3 c5Fs c5Env =
      (c5Sess, c5Fs,
       .error (.typed "CONFLICT_DETECTED" "source zip has been modified externally")) :=
  C5_conflict_detected_no_side_effects c5Sess c5Fs c5Env 3 [1, 2]
    rfl rfl rfl (by decide)

/-! ## Claim C9 -/

/-- C9: `ListFiles` with the empty string as relative path does not list
the workspace root: the empty path skips the relative-path pre-check but
is rejected by the entry-path validator, and the rejection is mapped to
a typed PATH_TRAVERSAL error; "." passes validation and yields the
directory listing. -/
theorem C9_empty_path_maps_to_path_traversal
    (stat : String → Option StatInfo) (rdf wkf : String → List (String × StatInfo))
    (cdir : String) (recursive : Bool) (info : StatInfo)
    (hval : validatePath cdir "." = .ok ())
    (hstat : stat (goJoin cdir ".") = some info)
    (hdir : info.isDir = true) :
    listFiles stat rdf wkf cdir "" recursive = .error (.typed "PATH_TRAVERSAL" "") ∧
    listFiles stat rdf wkf cdir "." false =
      .ok ((rdf (goJoin cdir ".")).map fun e => entryOf e.1 e.2) := by
  constructor
  · unfold listFiles
    simp [validatePath]
  · unfold listFiles
    simp [hval, hstat, hdir]

/-- Witness for C9 at a concrete contents directory holding one file. -/
theorem C9_empty_path_maps_to_path_traversal_witness :
    listFiles c9Stat c9ReadDir c9ReadDir "/data/ws/s1/contents" "" false
      = .error (.typed "PATH_TRAVERSAL" "") ∧
    listFiles c9Stat c9ReadDir c9ReadDir "/data/ws/s1/contents" "." false =
      .ok ((c9ReadDir (goJoin "/data/ws/s1/contents" ".")).map fun e => entryOf e.1 e.2) :=
  C9_empty_path_maps_to_path_traversal c9Stat c9ReadDir c9ReadDir
    "/data/ws/s1/contents" false { isDir := true, size := 0, mtimeUnix := 5 }
    (by decide) (by decide) rfl

/-! ## Claim C10 -/

/-- C10: after a successful shared or exclusive acquisition, the first
Release succeeds, dropping exactly this holder (all previously present
holders keep their locks) and closing the handle; every further Release
on the returned handle reports "lock already released" without panicking
and without touching the lock state. -/
theorem C10_release_exactly_once
    (sys sys1 : LockSys) (path : String) (shared : Bool) (l : LockHandle)
    (hfresh : ∀ h ∈ sys.holders, h.1 < sys.nextFd)
    (hacq : lockAcquire sys path shared = (sys1, .ok l)) :
    (lockRelease sys1 l).2.2 = .ok () ∧
    (lockRelease sys1 l).1.holders = sys.holders ∧
    (lockRelease (lockRelease sys1 l).1 (lockRelease sys1 l).2.1).2.2 =
      .error (.plain "lock already released") ∧
    (lockRelease (lockRelease sys1 l).1 (lockRelease sys1 l).2.1).1 =
      (lockRelease sys1 l).1 := by
  unfold lockAcquire at hacq
  by_cases hc : (if shared then sys.holders.all (fun h => h.2) else sys.holders.isEmpty) = true
  · rw [if_pos hc] at hacq
    have h1 : sys1 = { holders := sys.holders ++ [(sys.nextFd, shared)], nextFd := sys.nextFd + 1 } :=
      (congrArg Prod.fst hacq).symm
    have h2 : Except.ok (ε := GoErr)
        ({ file := some sys.nextFd, path := path, isShared := shared } : LockHandle) = .ok l :=
      congrArg Prod.snd hacq
    have h3 : l = { file := some sys.nextFd, path := path, isShared := shared } := by
      injection h2 with h4
      exact h4.symm
    subst h1
    subst h3
    have hfilter : (sys.holders ++ [(sys.nextFd, shared)]).filter
        (fun h => decide (h.1 ≠ sys.nextFd)) = sys.holders := by
      rw [List.filter_append]
      have hself : sys.holders.filter (fun h => decide (h.1 ≠ sys.nextFd)) = sys.holders := by
        refine List.filter_eq_self.mpr ?_
        intro a ha
        have := hfresh a ha
        simp only [decide_eq_true_eq]
        omega
      have hsingle : List.filter (fun h => decide (h.1 ≠ sys.nextFd))
          [(sys.nextFd, shared)] = [] := by simp
      rw [hself, hsingle, List.append_nil]
    refine ⟨rfl, ?_, rfl, rfl⟩
    simp only [lockRelease, hfilter]
  · rw [if_neg hc] at hacq
    exact absurd (congrArg (fun p => p.2) hacq) (by simp)

end Zipfs

namespace Zipfs

/-! ## Helper lemmas about untyped validation errors -/

theorem goRel_error_plain (a b : String) (e : GoErr) (h : goRel a b = .error e) :
    e = .plain "Rel: cant make target relative to base" := by
  simp only [goRel] at h
  repeat' split at h
  all_goals first
    | (injection h with h2; exact h2.symm)
    | (exact Except.noConfusion h)

theorem validatePath_error_untyped (base p : String) (e : GoErr)
    (h : validatePath base p = .error e) : errCode e = "" := by
  simp only [validatePath] at h
  repeat' split at h
  all_goals first
    | (exact Except.noConfusion h)
    | (injection h with h2; subst h2; rfl)
    | (injection h with h2; subst h2;
       rename_i heq
       show errCode _ = ""
       simp only [errCode]
       rw [goRel_error_plain _ _ _ heq]
       rfl)

theorem validateAllPaths_error_untyped (base : String) :
    ∀ (ps : List String) (e : GoErr),
      validateAllPaths base ps = .error e → errCode e = "" := by
  intro ps
  induction ps with
  | nil => intro e h; exact absurd h (by simp [validateAllPaths])
  | cons p rest ih =>
    intro e h
    unfold validateAllPaths at h
    split at h
    · rename_i e1 heq
      injection h with h2
      subst h2
      show errCode e1 = ""
      exact validatePath_error_untyped base p e1 heq
    · exact ih e h

/-! ## Claim C10 witness -/

/-- Witness for C10: a shared acquisition next to an existing shared
holder, released twice. -/
theorem C10_release_exactly_once_witness :
    (lockRelease { holders := [(0, true), (1, true)], nextFd := 2 }
        { file := some 1, path := "p", isShared := true }).2.2 = .ok () ∧
    (lockRelease { holders := [(0, true), (1, true)], nextFd := 2 }
        { file := some 1, path := "p", isShared := true }).1.holders = c10Sys.holders ∧
    (lockRelease
        (lockRelease { holders := [(0, true), (1, true)], nextFd := 2 }
          { file := some 1, path := "p", isShared := true }).1
        (lockRelease { holders := [(0, true), (1, true)], nextFd := 2 }
          { file := some 1, path := "p", isShared := true }).2.1).2.2 =
      .error (.plain "lock already released") ∧
    (lockRelease
        (lockRelease { holders := [(0, true), (1, true)], nextFd := 2 }
          { file := some 1, path := "p", isShared := true }).1
        (lockRelease { holders := [(0, true), (1, true)], nextFd := 2 }
          { file := some 1, path := "p", isShared := true }).2.1).1 =
      (lockRelease { holders := [(0, true), (1, true)], nextFd := 2 }
        { file := some 1, path := "p", isShared := true }).1 :=
  C10_release_exactly_once c10Sys { holders := [(0, true), (1, true)], nextFd := 2 }
    "p" true { file := some 1, path := "p", isShared := true }
    (by decide) (by decide)

/-! ## Claim C8 -/

/-- C8 counterexample: no environment variable overrides the symlink
policy.  An environment that sets a symlink-policy variable (and nothing
else) leaves the loaded configuration exactly at its defaults, with
allow_symlinks still false. -/
theorem C8_no_symlink_env_override :
    applyEnvOverrides defaultConfig symlinkEnv = .ok defaultConfig ∧
    defaultConfig.security.allowSymlinks = false := by
  refine ⟨by decide, rfl⟩

/-- C8 amended: configuration loading honours environment overrides for
the data root, maximum extraction size, maximum session count and
maximum file count; the symlink policy has no environment override — no
environment whatsoever changes allow_symlinks. -/
theorem C8_env_overrides_effective
    (cfg : Config) (env : Env) (home : Except GoErr String)
    (s1 s2 s3 d : String) (v1 : Nat) (v2 v3 : Int)
    (h1 : env "ZIPFS_MAX_EXTRACTED_SIZE" = some s1) (hp1 : parseUint64 s1 = some v1)
    (h2 : env "ZIPFS_MAX_SESSIONS" = some s2) (hp2 : parseAtoi s2 = some v2)
    (h3 : env "ZIPFS_MAX_FILE_COUNT" = some s3) (hp3 : parseAtoi s3 = some v3)
    (h4 : env "ZIPFS_DATA_DIR" = some d) (hd : d ≠ "") :
    applyEnvOverrides cfg env =
      .ok { cfg with
              security.maxExtractedSizeBytes := v1
              security.maxSessions := v2
              security.maxFileCount := v3 } ∧
    dataDir env home = .ok d ∧
    (∀ (env2 : Env) (cfg2 out : Config),
        applyEnvOverrides cfg2 env2 = .ok out →
        out.security.allowSymlinks = cfg2.security.allowSymlinks) := by
  refine ⟨?_, ?_, ?_⟩
  · simp only [applyEnvOverrides, h1, hp1, h2, hp2, h3, hp3]
  · unfold dataDir getenv
    rw [h4]
    simp [hd]
  · intro env2 cfg2 out h
    unfold applyEnvOverrides at h
    repeat' split at h
    all_goals simp_all
    all_goals (subst h; rfl)

/-- Witness for C8 at a concrete environment setting all four honoured
variables. -/
theorem C8_env_overrides_effective_witness :
    applyEnvOverrides defaultConfig c8Env =
      .ok { defaultConfig with
              security.maxExtractedSizeBytes := 3221225472
              security.maxSessions := 128
              security.maxFileCount := 500000 } ∧
    dataDir c8Env (.ok "/home/u") = .ok "/custom/data" ∧
    (∀ (env2 : Env) (cfg2 out : Config),
        applyEnvOverrides cfg2 env2 = .ok out →
        out.security.allowSymlinks = cfg2.security.allowSymlinks) :=
  C8_env_overrides_effective defaultConfig c8Env (.ok "/home/u")
    "3221225472" "128" "500000" "/custom/data" 3221225472 128 500000
    rfl (by decide) rfl (by decide) rfl (by decide) rfl (by decide)

end Zipfs

namespace Zipfs

/-! ## Claim C2 -/

/-- C2 counterexample: extraction is not all-or-nothing at the extractor
boundary.  An archive whose first entry is fine and whose second entry
has an unreadable stream makes Extract return an error while the first
file remains in the destination — the destination is neither fully
materialized nor left empty, and Extract removes nothing. -/
theorem C2_partial_extraction_left_behind :
    ((extract [okEntry, corruptEntry] "/ws" defaultLimits xfsEmpty).2.2.2).isSome = true ∧
    (extract [okEntry, corruptEntry] "/ws" defaultLimits xfsEmpty).1.files "/ws/ok.txt"
      = some ([120], 0o644) := by
  refine ⟨by decide, by decide⟩

/-- C2 amended: extraction is fail-closed with respect to entry-path
validation — if any entry path is rejected, Extract returns an error
with the destination untouched — and the all-or-nothing cleanup lives in
the caller: whenever session creation does not return success, the
workspace directory (holding the extraction destination) does not exist
after the call. -/
theorem C2_fail_closed_and_caller_removes_workspace :
    (∀ (ar : List ZipEntry) (dest : String) (L : Limits) (fs0 : XFs) (e : GoErr),
        validateAllPaths dest (ar.map (fun f => f.name)) = .error e →
        (extract ar dest L fs0).1 = fs0 ∧
        ((extract ar dest L fs0).2.2.2).isSome = true) ∧
    (∀ (inp : OpenInput) (cfg : Config) (hashFn : List Nat → String),
        ((createSession inp cfg hashFn).2).isOk = true ∨
        (createSession inp cfg hashFn).1 = none) := by
  constructor
  · intro ar dest L fs0 e hval
    unfold extract
    by_cases hb : (checkZipBomb ar L).isSafe
    · simp [hb, hval]
    · simp [hb]
  · intro inp cfg hashFn
    unfold createSession
    repeat' (first | split | dsimp only)
    all_goals first
      | exact Or.inl rfl
      | exact Or.inr rfl

/-- Witness for C2 at the zip-slip archive: validation fails, the
destination tree is untouched, and an error is reported. -/
theorem C2_fail_closed_and_caller_removes_workspace_witness :
    (extract [escapeEntry] "/ws" defaultLimits xfsEmpty).1 = xfsEmpty ∧
    ((extract [escapeEntry] "/ws" defaultLimits xfsEmpty).2.2.2).isSome = true :=
  C2_fail_closed_and_caller_removes_workspace.1 [escapeEntry] "/ws" defaultLimits xfsEmpty
    (.wrap "validation failed for paths"
      (.plain "path traversal detected: attempts to escape base directory"))
    (by decide)

/-! ## Claim C4 -/

/-- C4 counterexample: opening an archive containing `ok.txt` and
`../escape` fails and leaves no workspace, but the error carries no
typed code at all — `errors.Code` yields "", not "PATH_TRAVERSAL" as
the claim states: the validation failure is wrapped in plain
`fmt.Errorf` chains that never attach the typed code. -/
theorem C4_open_error_lacks_path_traversal_code :
    (createSession slipOpenInput defaultConfig (fun _ => "h")).1 = none ∧
    (createSession slipOpenInput defaultConfig (fun _ => "h")).2 = .error c4Err ∧
    errCode c4Err = "" ∧ ("" : String) ≠ "PATH_TRAVERSAL" := by
  refine ⟨rfl, by decide, rfl, by decide⟩

/-- C4 amended: for any archive whose entry set fails path validation
(under a passing bomb pre-scan, an unnamed session, and free capacity),
opening fails before any entry byte is written, the workspace directory
does not exist after the call, and the returned error is the untyped
wrapped validation error — its extracted code is "" rather than
PATH_TRAVERSAL. -/
theorem C4_traversal_open_fails_closed
    (inp : OpenInput) (cfg : Config) (hashFn : List Nat → String)
    (src : List Nat) (ar : List ZipEntry) (e : GoErr)
    (hsrc : inp.sourceBytes = some src)
    (hname : inp.name = "")
    (hcount : ¬ ((inp.sessionCount : Int) ≥ cfg.security.maxSessions))
    (har : inp.archive = some ar)
    (hbomb : (checkZipBomb ar (toSecurityLimits cfg)).isSafe = true)
    (hval : validateAllPaths inp.contentsDir (ar.map (fun f => f.name)) = .error e) :
    createSession inp cfg hashFn =
      (none, .error (.wrap "failed to extract zip" (.wrap "path validation failed" e))) ∧
    errCode (.wrap "failed to extract zip" (.wrap "path validation failed" e)) = "" := by
  constructor
  · unfold createSession extract
    rw [hsrc, hname, har]
    simp [hcount, hbomb, hval]
  · show errCode e = ""
    exact validateAllPaths_error_untyped inp.contentsDir _ e hval

/-- Witness for C4 at the concrete `../escape` archive. -/
theorem C4_traversal_open_fails_closed_witness :
    createSession slipOpenInput defaultConfig (fun _ => "h") =
      (none,
       .error (.wrap "failed to extract zip" (.wrap "path validation failed"
         (.wrap "validation failed for paths"
           (.plain "path traversal detected: attempts to escape base directory"))))) ∧
    errCode (.wrap "failed to extract zip" (.wrap "path validation failed"
      (.wrap "validation failed for paths"
        (.plain "path traversal detected: attempts to escape base directory")))) = "" :=
  C4_traversal_open_fails_closed slipOpenInput defaultConfig (fun _ => "h")
    [80, 75, 3, 4] [okEntry, escapeEntry]
    (.wrap "validation failed for paths"
      (.plain "path traversal detected: attempts to escape base directory"))
    rfl rfl (by decide) rfl (by decide) (by decide)

end Zipfs

namespace Zipfs

/-! ## Claim C6: resolver -/

theorem getSessionLoop_nil (id : String) (ms : List SessionMeta) :
    getSessionLoop id [] ms = loopFinish id ms := by
  cases ms with
  | nil => rfl
  | cons a rest => cases rest <;> rfl

theorem loop_no_exact (id : String) :
    ∀ (entries : List WsEntry) (acc : List SessionMeta),
      (∀ e ∈ entries, ∀ s, e.meta = some s → e.dirName ≠ id ∧ s.id ≠ id) →
      getSessionLoop id entries acc = loopFinish id (acc ++ prefAccum entries id) := by
  intro entries
  induction entries with
  | nil =>
    intro acc _
    rw [getSessionLoop_nil]
    simp [prefAccum]
  | cons e rest ih =>
    intro acc h
    have hrest : ∀ e2 ∈ rest, ∀ s, e2.meta = some s → e2.dirName ≠ id ∧ s.id ≠ id :=
      fun e2 he2 s hs => h e2 (List.mem_cons_of_mem e he2) s hs
    by_cases hd : e.dirName = id
    · cases hm : e.meta with
      | none =>
        simp only [getSessionLoop, if_pos hd, hm]
        rw [ih acc hrest]
        simp [prefAccum, hm]
      | some s => exact absurd hd ((h e (List.mem_cons_self e rest) s hm).1)
    · cases hm : e.meta with
      | none =>
        simp only [getSessionLoop, if_neg hd, hm]
        rw [ih acc hrest]
        simp [prefAccum, hm]
      | some s =>
        have hsid : s.id ≠ id := (h e (List.mem_cons_self e rest) s hm).2
        by_cases hp : 4 ≤ id.length ∧ hasPrefixStr s.id id
        · simp only [getSessionLoop, if_neg hd, hm, if_neg hsid, if_pos hp]
          rw [ih (acc ++ [s]) hrest]
          simp [prefAccum, hm, hp, List.append_assoc]
        · simp only [getSessionLoop, if_neg hd, hm, if_neg hsid, if_neg hp]
          rw [ih acc hrest]
          simp [prefAccum, hm, hp]

theorem loop_exact (id : String) :
    ∀ (entries : List WsEntry) (acc : List SessionMeta) (s : SessionMeta),
      (∃ e ∈ entries, e.meta = some s ∧ (e.dirName = id ∨ s.id = id)) →
      (∀ e2 ∈ entries, ∀ s2, e2.meta = some s2 →
        (e2.dirName = id ∨ s2.id = id) → s2 = s) →
      getSessionLoop id entries acc = .ok s := by
  intro entries
  induction entries with
  | nil =>
    intro acc s hex _
    obtain ⟨e, he, _⟩ := hex
    exact absurd he (List.not_mem_nil e)
  | cons e rest ih =>
    intro acc s hex huniq
    have huniqRest : ∀ e2 ∈ rest, ∀ s2, e2.meta = some s2 →
        (e2.dirName = id ∨ s2.id = id) → s2 = s :=
      fun e2 he2 => huniq e2 (List.mem_cons_of_mem e he2)
    by_cases hd : e.dirName = id
    · cases hm : e.meta with
      | none =>
        simp only [getSessionLoop, if_pos hd, hm]
        refine ih acc s ?_ huniqRest
        obtain ⟨e2, he2, hs2, hhit⟩ := hex
        rcases List.mem_cons.mp he2 with rfl | hmem
        · rw [hm] at hs2; exact absurd hs2 (by simp)
        · exact ⟨e2, hmem, hs2, hhit⟩
      | some s0 =>
        simp only [getSessionLoop, if_pos hd, hm]
        rw [huniq e (List.mem_cons_self e rest) s0 hm (Or.inl hd)]
    · cases hm : e.meta with
      | none =>
        simp only [getSessionLoop, if_neg hd, hm]
        refine ih acc s ?_ huniqRest
        obtain ⟨e2, he2, hs2, hhit⟩ := hex
        rcases List.mem_cons.mp he2 with rfl | hmem
        · rw [hm] at hs2; exact absurd hs2 (by simp)
        · exact ⟨e2, hmem, hs2, hhit⟩
      | some s0 =>
        by_cases hsid : s0.id = id
        · simp only [getSessionLoop, if_neg hd, hm, if_pos hsid]
          rw [huniq e (List.mem_cons_self e rest) s0 hm (Or.inr hsid)]
        · have hexRest : ∃ e2 ∈ rest, e2.meta = some s ∧ (e2.dirName = id ∨ s.id = id) := by
            obtain ⟨e2, he2, hs2, hhit⟩ := hex
            rcases List.mem_cons.mp he2 with rfl | hmem
            · rw [hm] at hs2
              injection hs2 with hs3
              subst hs3
              rcases hhit with h1 | h2
              · exact absurd h1 hd
              · exact absurd h2 hsid
            · exact ⟨e2, hmem, hs2, hhit⟩
          by_cases hp : 4 ≤ id.length ∧ hasPrefixStr s0.id id
          · simp only [getSessionLoop, if_neg hd, hm, if_neg hsid, if_pos hp]
            exact ih (acc ++ [s0]) s hexRest huniqRest
          · simp only [getSessionLoop, if_neg hd, hm, if_neg hsid, if_neg hp]
            exact ih acc s hexRest huniqRest

end Zipfs

namespace Zipfs

theorem prefAccum_nil_of_short (entries : List WsEntry) (id : String)
    (hlen : ¬ 4 ≤ id.length) : prefAccum entries id = [] := by
  induction entries with
  | nil => rfl
  | cons e rest ih =>
    have hfe : (e.meta.bind fun s =>
        if 4 ≤ id.length ∧ hasPrefixStr s.id id then some s else none) = none := by
      cases hm : e.meta with
      | none => rfl
      | some s => simp [hlen]
    show List.filterMap _ (e :: rest) = []
    rw [List.filterMap_cons, hfe]
    exact ih

/-- C6: total correctness of session resolution.  Under the store
invariants (each loadable workspace directory is named by the session's
name when present, else by its id; ids and directory names are unique;
session names never collide with any session id): an empty identifier
yields NO_SESSIONS / the unique session / AMBIGUOUS_SESSION according to
the number of loadable sessions; a non-empty identifier resolves by
exact directory-name match, else exact id match, else — when no exact
match exists — as an id prefix that must be at least 4 characters long
and match exactly one session, two or more prefix matches being
AMBIGUOUS_SESSION, zero being SESSION_NOT_FOUND, and an identifier
shorter than 4 characters never prefix-matching at all. -/
theorem C6_resolver_total
    (entries : List WsEntry) (id : String)
    (hdn : ∀ e ∈ entries, ∀ e2 ∈ entries, ∀ s s2, e.meta = some s → e2.meta = some s2 →
        e ≠ e2 → s.id ≠ s2.id ∧ e.dirName ≠ e2.dirName)
    (hname : ∀ e ∈ entries, ∀ s, e.meta = some s →
        e.dirName = (if s.name = "" then s.id else s.name))
    (hnotid : ∀ e ∈ entries, ∀ s, e.meta = some s → ∀ e2 ∈ entries, ∀ s2,
        e2.meta = some s2 → s.name ≠ s2.id) :
    ((id = "") → (
      (listSessions entries = [] →
        resolveSession entries id = .error (.typed "NO_SESSIONS" "no sessions are open")) ∧
      (∀ s, listSessions entries = [s] → resolveSession entries id = .ok s) ∧
      (2 ≤ (listSessions entries).length →
        resolveSession entries id =
          .error (.typed "AMBIGUOUS_SESSION" "multiple sessions are open")))) ∧
    ((id ≠ "") → (
      (∀ e ∈ entries, ∀ s, e.meta = some s → e.dirName = id →
        resolveSession entries id = .ok s) ∧
      (∀ e ∈ entries, ∀ s, e.meta = some s → s.id = id →
        resolveSession entries id = .ok s) ∧
      ((∀ e ∈ entries, ∀ s, e.meta = some s → e.dirName ≠ id ∧ s.id ≠ id) → (
        (∀ s, prefAccum entries id = [s] → resolveSession entries id = .ok s) ∧
        (2 ≤ (prefAccum entries id).length →
          resolveSession entries id =
            .error (.typed "AMBIGUOUS_SESSION" "multiple sessions match")) ∧
        (prefAccum entries id = [] →
          resolveSession entries id = .error (.typed "SESSION_NOT_FOUND" id)) ∧
        (¬ 4 ≤ id.length →
          resolveSession entries id = .error (.typed "SESSION_NOT_FOUND" id)))))) := by
  have huniq : ∀ sh, (∃ e ∈ entries, e.meta = some sh ∧ (e.dirName = id ∨ sh.id = id)) →
      ∀ e2 ∈ entries, ∀ s2, e2.meta = some s2 → (e2.dirName = id ∨ s2.id = id) →
      s2 = sh := by
    rintro sh ⟨e, he, hs, hhit⟩ e2 he2 s2 hs2 hhit2
    by_cases heq : e = e2
    · subst heq
      rw [hs] at hs2
      injection hs2 with h3
      exact h3.symm
    · exfalso
      obtain ⟨hid12, hdn12⟩ := hdn e he e2 he2 sh s2 hs hs2 heq
      have hnm : e.dirName = (if sh.name = "" then sh.id else sh.name) := hname e he sh hs
      have hnm2 : e2.dirName = (if s2.name = "" then s2.id else s2.name) := hname e2 he2 s2 hs2
      rcases hhit with h1 | h1 <;> rcases hhit2 with h2 | h2
      · exact hdn12 (h1.trans h2.symm)
      · by_cases hn : sh.name = ""
        · rw [hn, if_pos rfl] at hnm
          exact hid12 ((hnm.symm.trans h1).trans h2.symm)
        · rw [if_neg hn] at hnm
          exact hnotid e he sh hs e2 he2 s2 hs2 ((hnm.symm.trans h1).trans h2.symm)
      · by_cases hn : s2.name = ""
        · rw [hn, if_pos rfl] at hnm2
          exact hid12 (h1.trans ((hnm2.symm.trans h2).symm))
        · rw [if_neg hn] at hnm2
          exact hnotid e2 he2 s2 hs2 e he sh hs ((hnm2.symm.trans h2).trans h1.symm)
      · exact hid12 (h1.trans h2.symm)
  constructor
  · intro hid
    refine ⟨?_, ?_, ?_⟩
    · intro h0
      simp [resolveSession, hid, h0]
    · intro s hs
      simp [resolveSession, hid, hs]
    · intro h2
      cases hls : listSessions entries with
      | nil => rw [hls] at h2; exact absurd h2 (by simp)
      | cons a rest =>
        cases rest with
        | nil => rw [hls] at h2; exact absurd h2 (by simp)
        | cons b r2 => simp [resolveSession, hid, hls]
  · intro hid
    have hres : resolveSession entries id = getSessionLoop id entries [] := by
      simp [resolveSession, getSession, hid]
    refine ⟨?_, ?_, ?_⟩
    · intro e he s hs hd
      rw [hres]
      exact loop_exact id entries [] s ⟨e, he, hs, Or.inl hd⟩
        (huniq s ⟨e, he, hs, Or.inl hd⟩)
    · intro e he s hs hsid
      rw [hres]
      exact loop_exact id entries [] s ⟨e, he, hs, Or.inr hsid⟩
        (huniq s ⟨e, he, hs, Or.inr hsid⟩)
    · intro hnoex
      have hloop := loop_no_exact id entries [] hnoex
      refine ⟨?_, ?_, ?_, ?_⟩
      · intro s hs
        rw [hres, hloop, hs]
        rfl
      · intro h2
        cases hpa : prefAccum entries id with
        | nil => rw [hpa] at h2; exact absurd h2 (by simp)
        | cons a rest =>
          cases rest with
          | nil => rw [hpa] at h2; exact absurd h2 (by simp)
          | cons b r2 => rw [hres, hloop, hpa]; rfl
      · intro h0
        rw [hres, hloop, h0]
        rfl
      · intro hlen
        rw [hres, hloop, prefAccum_nil_of_short entries id hlen]
        rfl

end Zipfs

namespace Zipfs

/-- Witness for C6: in a store with a named session and an unnamed one,
the 4-character prefix "3333" resolves to the unnamed session. -/
theorem C6_resolver_total_witness :
    resolveSession demoEntries "3333" = .ok demoS2 := by
  have h := C6_resolver_total demoEntries "3333"
    (by
      intro e he e2 he2 s s2 hs hs2 hne
      fin_cases he <;> fin_cases he2 <;>
        first
          | exact absurd rfl hne
          | (first
              | (have h3 : some demoS1 = some s := hs
                 have h4 : some demoS2 = some s2 := hs2
                 injection h3 with h5
                 injection h4 with h6
                 subst h5
                 subst h6
                 exact ⟨by decide, by decide⟩)
              | (have h3 : some demoS2 = some s := hs
                 have h4 : some demoS1 = some s2 := hs2
                 injection h3 with h5
                 injection h4 with h6
                 subst h5
                 subst h6
                 exact ⟨by decide, by decide⟩)))
    (by
      intro e he s hs
      fin_cases he <;>
        first
          | (have h3 : some demoS1 = some s := hs
             injection h3 with h4
             subst h4
             decide)
          | (have h3 : some demoS2 = some s := hs
             injection h3 with h4
             subst h4
             decide))
    (by
      intro e he s hs e2 he2 s2 hs2
      fin_cases he <;> fin_cases he2 <;>
        first
          | (have h3 : some demoS1 = some s := hs
             have h4 : some demoS1 = some s2 := hs2
             injection h3 with h5
             injection h4 with h6
             subst h5
             subst h6
             decide)
          | (have h3 : some demoS1 = some s := hs
             have h4 : some demoS2 = some s2 := hs2
             injection h3 with h5
             injection h4 with h6
             subst h5
             subst h6
             decide)
          | (have h3 : some demoS2 = some s := hs
             have h4 : some demoS1 = some s2 := hs2
             injection h3 with h5
             injection h4 with h6
             subst h5
             subst h6
             decide)
          | (have h3 : some demoS2 = some s := hs
             have h4 : some demoS2 = some s2 := hs2
             injection h3 with h5
             injection h4 with h6
             subst h5
             subst h6
             decide))
  exact ((h.2 (by decide)).2.2 (by decide)).1 demoS2 (by decide)

end Zipfs

namespace Zipfs

/-! ## Claim C7: backup rotation -/

theorem strData_inj {a b : String} (h : a.data = b.data) : a = b := by
  cases a
  cases b
  simp only at h
  rw [h]

theorem loopBakName_inj (base ext : String) {j k : Nat}
    (h : loopBakName base ext j = loopBakName base ext k) : j = k := by
  unfold loopBakName at h
  have hd := congrArg String.data h
  simp only [String.data_append, List.append_assoc] at hd
  have h1 : (Nat.repr j).data ++ ext.data = (Nat.repr k).data ++ ext.data :=
    List.append_cancel_left (List.append_cancel_left hd)
  have h2 : (Nat.repr j).data = (Nat.repr k).data := List.append_cancel_right h1
  exact natRepr_injective (strData_inj h2)

theorem loopBakName_length (base ext : String) (k : Nat) :
    (loopBakName base ext k).length = base.length + 5 + (Nat.repr k).length + ext.length := by
  unfold loopBakName
  have h5 : (".bak." : String).length = 5 := rfl
  rw [String.length_append, String.length_append, String.length_append, h5]

theorem bakName_one_length (base ext : String) :
    (bakName base ext 1).length = base.length + 4 + ext.length := by
  unfold bakName
  rw [if_pos rfl]
  have h4 : (".bak" : String).length = 4 := rfl
  rw [String.length_append, String.length_append, h4]

theorem bakName_eq_loopBakName (base ext : String) (k : Nat) (hk : 2 ≤ k) :
    bakName base ext k = loopBakName base ext k := by
  unfold bakName loopBakName
  rw [if_neg (by omega)]

theorem goExtAux_length :
    ∀ (l acc : List Char) (s : String), goExtAux l acc = some s →
      s.length ≤ l.length + acc.length := by
  intro l
  induction l with
  | nil => intro acc s h; exact absurd h (by simp [goExtAux])
  | cons ch rest ih =>
    intro acc s h
    unfold goExtAux at h
    by_cases h1 : ch = '/'
    · rw [if_pos h1] at h; exact absurd h (by simp)
    · rw [if_neg h1] at h
      by_cases h2 : ch = '.'
      · rw [if_pos h2] at h
        injection h with h3
        subst h3
        show (ch :: acc).length ≤ _
        simp only [List.length_cons]
        omega
      · rw [if_neg h2] at h
        have := ih (ch :: acc) s h
        simp only [List.length_cons] at this ⊢
        omega

theorem goExt_length_le (p : String) : (goExt p).length ≤ p.length := by
  unfold goExt
  cases h : goExtAux p.toList.reverse [] with
  | none => simp
  | some s =>
    have := goExtAux_length _ _ _ h
    simp only [List.length_reverse, List.length_nil, Nat.add_zero] at this
    simpa using this

theorem stem_ext_length (p : String) :
    (goStem p).length + (goExt p).length = p.length := by
  have hle := goExt_length_le p
  unfold goStem
  show (p.toList.take (p.length - (goExt p).length)).length + _ = _
  rw [List.length_take]
  have hlen : p.toList.length = p.length := rfl
  omega

theorem src_ne_loopBakName (src : String) (k : Nat) :
    src ≠ loopBakName (goStem src) (goExt src) k := by
  intro h
  have hl := congrArg String.length h
  rw [loopBakName_length] at hl
  have h2 := stem_ext_length src
  have h3 := natRepr_length_pos k
  omega

theorem src_ne_bakName (src : String) (k : Nat) :
    src ≠ bakName (goStem src) (goExt src) k := by
  by_cases hk : k = 1
  · subst hk
    intro h
    have hl := congrArg String.length h
    rw [bakName_one_length] at hl
    have h2 := stem_ext_length src
    omega
  · intro h
    rw [show bakName (goStem src) (goExt src) k =
          loopBakName (goStem src) (goExt src) k from by unfold bakName loopBakName; rw [if_neg hk]] at h
    exact src_ne_loopBakName src k h

theorem bakName_one_ne_loopBakName (base ext : String) (k : Nat) :
    bakName base ext 1 ≠ loopBakName base ext k := by
  intro h
  have hl := congrArg String.length h
  rw [bakName_one_length, loopBakName_length] at hl
  have h3 := natRepr_length_pos k
  omega

theorem bakName_inj (base ext : String) {j k : Nat}
    (h : bakName base ext j = bakName base ext k) (hj : 1 ≤ j) (hk : 1 ≤ k) : j = k := by
  by_cases h1 : j = 1 <;> by_cases h2 : k = 1
  · omega
  · subst h1
    rw [show bakName base ext k = loopBakName base ext k from by
        unfold bakName loopBakName; rw [if_neg h2]] at h
    exact absurd h (bakName_one_ne_loopBakName base ext k)
  · subst h2
    rw [show bakName base ext j = loopBakName base ext j from by
        unfold bakName loopBakName; rw [if_neg h1]] at h
    exact absurd h.symm (bakName_one_ne_loopBakName base ext j)
  · rw [show bakName base ext j = loopBakName base ext j from by
        unfold bakName loopBakName; rw [if_neg h1],
        show bakName base ext k = loopBakName base ext k from by
        unfold bakName loopBakName; rw [if_neg h2]] at h
    exact loopBakName_inj base ext h

end Zipfs

namespace Zipfs

theorem countdown_lt_two (i : Nat) (h : i < 2) : countdown i = [] := by
  interval_cases i <;> rfl

theorem countdown_eq_cons (i : Nat) (h : 2 ≤ i) : countdown i = i :: countdown (i - 1) := by
  unfold countdown
  have h1 : i - 1 = (i - 2) + 1 := by omega
  rw [h1]
  have h2 := @List.range'_concat 1 2 (i - 2)
  simp only [Nat.one_mul] at h2
  rw [h2]
  have h3 : 2 + (i - 2) = i := by omega
  rw [h3, List.reverse_append]
  simp [show i - 1 - 1 = i - 2 from by omega]

theorem rotateStep_lookup (base ext : String) (fs : Fs) (i : Nat) (hi : 2 ≤ i) :
    (rotateStep base ext fs i) (loopBakName base ext i)
      = fs (loopBakName base ext (i - 1)) ∧
    (rotateStep base ext fs i) (loopBakName base ext (i - 1)) = none ∧
    (∀ name, name ≠ loopBakName base ext i → name ≠ loopBakName base ext (i - 1) →
      (rotateStep base ext fs i) name = fs name) := by
  have hne : loopBakName base ext (i - 1) ≠ loopBakName base ext i := by
    intro h
    have := loopBakName_inj base ext h
    omega
  have hrm : fsRemove (loopBakName base ext i) fs (loopBakName base ext (i - 1))
      = fs (loopBakName base ext (i - 1)) := by
    unfold fsRemove
    rw [if_neg hne]
  cases holdfs : fs (loopBakName base ext (i - 1)) with
  | none =>
    have hstep : rotateStep base ext fs i = fsRemove (loopBakName base ext i) fs := by
      unfold rotateStep
      show (match fsRemove (loopBakName base ext i) fs (loopBakName base ext (i - 1)) with
            | some _ => fsRename (loopBakName base ext (i - 1)) (loopBakName base ext i)
                (fsRemove (loopBakName base ext i) fs)
            | none => fsRemove (loopBakName base ext i) fs) = _
      rw [hrm.trans holdfs]
    rw [hstep]
    refine ⟨?_, ?_, ?_⟩
    · unfold fsRemove
      rw [if_pos rfl]
    · unfold fsRemove
      rw [if_neg hne]
      exact holdfs
    · intro name hn1 _
      unfold fsRemove
      rw [if_neg hn1]
  | some cdata =>
    have hstep : rotateStep base ext fs i
        = fsRename (loopBakName base ext (i - 1)) (loopBakName base ext i)
            (fsRemove (loopBakName base ext i) fs) := by
      unfold rotateStep
      show (match fsRemove (loopBakName base ext i) fs (loopBakName base ext (i - 1)) with
            | some _ => fsRename (loopBakName base ext (i - 1)) (loopBakName base ext i)
                (fsRemove (loopBakName base ext i) fs)
            | none => fsRemove (loopBakName base ext i) fs) = _
      rw [hrm.trans holdfs]
    rw [hstep]
    refine ⟨?_, ?_, ?_⟩
    · unfold fsRename
      rw [if_pos rfl, hrm]
      exact holdfs
    · unfold fsRename
      rw [if_neg hne, if_pos rfl]
    · intro name hn1 hn2
      unfold fsRename fsRemove
      rw [if_neg hn1, if_neg hn2, if_neg hn1]

theorem foldRot_spec (base ext : String) :
    ∀ (i : Nat) (fs : Fs),
      (∀ j, 2 ≤ j → j ≤ i →
        ((countdown i).foldl (rotateStep base ext) fs) (loopBakName base ext j)
          = fs (loopBakName base ext (j - 1))) ∧
      (2 ≤ i →
        ((countdown i).foldl (rotateStep base ext) fs) (loopBakName base ext 1) = none) ∧
      (∀ name, (∀ j, 1 ≤ j → j ≤ i → name ≠ loopBakName base ext j) →
        ((countdown i).foldl (rotateStep base ext) fs) name = fs name) := by
  intro i
  induction i using Nat.strong_induction_on with
  | _ i ih =>
    intro fs
    by_cases hi : 2 ≤ i
    · rw [countdown_eq_cons i hi]
      simp only [List.foldl_cons]
      set fs1 := rotateStep base ext fs i with hfs1
      obtain ⟨hstep1, hstep2, hstep3⟩ := rotateStep_lookup base ext fs i hi
      obtain ⟨iha, ihb, ihc⟩ := ih (i - 1) (by omega) fs1
      refine ⟨?_, ?_, ?_⟩
      · intro j hj2 hji
        by_cases hjlast : j = i
        · have hnot : ∀ j2, 1 ≤ j2 → j2 ≤ i - 1 → loopBakName base ext i ≠ loopBakName base ext j2 := by
            intro j2 _ hj2i h
            have := loopBakName_inj base ext h
            omega
          rw [hjlast, ihc (loopBakName base ext i) hnot]
          exact hstep1
        · have hji1 : j ≤ i - 1 := by omega
          rw [iha j hj2 hji1]
          apply hstep3
          · intro h
            have := loopBakName_inj base ext h
            omega
          · intro h
            have := loopBakName_inj base ext h
            omega
      · intro _
        by_cases hi3 : 2 ≤ i - 1
        · exact ihb hi3
        · have hieq : i = 2 := by omega
          subst hieq
          rw [countdown_lt_two 1 (by omega)]
          simp only [List.foldl_nil]
          exact hstep2
      · intro name hname
        have h1 : name ≠ loopBakName base ext i := hname i (by omega) (by omega)
        have h2 : name ≠ loopBakName base ext (i - 1) := hname (i - 1) (by omega) (by omega)
        rw [ihc name (fun j hj1 hji => hname j hj1 (by omega))]
        exact hstep3 name h1 h2
    · rw [countdown_lt_two i (by omega)]
      simp only [List.foldl_nil]
      exact ⟨fun j hj2 hji => by omega, fun h => by omega, fun name _ => by trivial⟩

end Zipfs

namespace Zipfs

theorem fsWrite_at (p : String) (c0 : List Nat) (fs : Fs) : fsWrite p c0 fs p = some c0 := by
  unfold fsWrite
  rw [if_pos rfl]

theorem fsWrite_ne (p : String) (c0 : List Nat) (fs : Fs) (q : String) (h : q ≠ p) :
    fsWrite p c0 fs q = fs q := by
  unfold fsWrite
  rw [if_neg h]

theorem fsRename_at_new (old nw : String) (fs : Fs) : fsRename old nw fs nw = fs old := by
  unfold fsRename
  rw [if_pos rfl]

theorem fsRename_other (old nw : String) (fs : Fs) (q : String)
    (h1 : q ≠ nw) (h2 : q ≠ old) : fsRename old nw fs q = fs q := by
  unfold fsRename
  rw [if_neg h1, if_neg h2]

theorem fsRemove_ne (p : String) (fs : Fs) (q : String) (h : q ≠ p) :
    fsRemove p fs q = fs q := by
  unfold fsRemove
  rw [if_neg h]

theorem bak2_eq (B E : String) : B ++ ".bak.2" ++ E = bakName B E 2 := by
  unfold bakName
  rw [if_neg (by omega)]
  apply strData_inj
  simp only [String.data_append, List.append_assoc]
  have h2 : (Nat.repr 2).data = ['2'] := by decide
  rw [h2]
  rfl

end Zipfs


namespace Zipfs

theorem rotateBackups_inv
    (src : String) (depth : Nat) (hdepth : 2 ≤ depth)
    (c : Nat → List Nat) (n : Nat) (fs : Fs)
    (hinv : SyncInv src depth c n fs) :
    ∃ g2, rotateBackups fs src depth = .ok (g2, bakName (goStem src) (goExt src) 1) ∧
      SyncInv src depth c (n + 1) (fsWrite src (c (n + 1)) g2) := by
  obtain ⟨h1, h2, h3, h4⟩ := hinv
  obtain ⟨fa, fb, fc⟩ := foldRot_spec (goStem src) (goExt src) depth fs
  have hloop1 : fs (loopBakName (goStem src) (goExt src) 1) = none := by
    apply h4
    · exact Ne.symm (src_ne_loopBakName src 1)
    · intro k hk
      by_cases hk1 : k = 1
      · subst hk1
        exact Ne.symm (bakName_one_ne_loopBakName (goStem src) (goExt src) 1)
      · rw [bakName_eq_loopBakName (goStem src) (goExt src) k (by omega)]
        intro h
        have := loopBakName_inj (goStem src) (goExt src) h
        omega
  have hgsrc : ((countdown depth).foldl (rotateStep (goStem src) (goExt src)) fs) src = fs src := by
    apply fc
    intro j hj1 hjd
    exact src_ne_loopBakName src j
  have hgbak1 : ((countdown depth).foldl (rotateStep (goStem src) (goExt src)) fs) (bakName (goStem src) (goExt src) 1) = fs (bakName (goStem src) (goExt src) 1) := by
    apply fc
    intro j hj1 hjd
    exact bakName_one_ne_loopBakName (goStem src) (goExt src) j
  have hgbakk : ∀ k, 2 ≤ k → k ≤ depth →
      ((countdown depth).foldl (rotateStep (goStem src) (goExt src)) fs) (bakName (goStem src) (goExt src) k) = fs (loopBakName (goStem src) (goExt src) (k - 1)) := by
    intro k hk2 hkd
    rw [bakName_eq_loopBakName (goStem src) (goExt src) k hk2]
    exact fa k hk2 hkd
  have hgbakgt : ∀ k, depth < k → 2 ≤ k →
      ((countdown depth).foldl (rotateStep (goStem src) (goExt src)) fs) (bakName (goStem src) (goExt src) k) = fs (bakName (goStem src) (goExt src) k) := by
    intro k hdk hk2
    rw [bakName_eq_loopBakName (goStem src) (goExt src) k hk2]
    apply fc
    intro j hj1 hjd
    intro h
    have := loopBakName_inj (goStem src) (goExt src) h
    omega
  have hb2 : ((goStem src) ++ ".bak.2" ++ (goExt src)) = bakName (goStem src) (goExt src) 2 := bak2_eq (goStem src) (goExt src)
  have hsne2 : src ≠ ((goStem src) ++ ".bak.2" ++ (goExt src)) := fun h => (src_ne_bakName src 2) (h.trans hb2)
  have hsne1 : src ≠ ((goStem src) ++ ".bak" ++ (goExt src)) := src_ne_bakName src 1
  have hb1ne2 : (bakName (goStem src) (goExt src) 1) ≠ ((goStem src) ++ ".bak.2" ++ (goExt src)) := fun h => by
    have := bakName_inj (goStem src) (goExt src) (h.trans hb2) (by omega) (by omega)
    omega
  by_cases hn : 1 ≤ n
  · -- at least one existing backup generation
    have hfsbak1 : fs (bakName (goStem src) (goExt src) 1) = some (c (n - 1)) := by
      have := h2 1 (by omega) (by omega)
      simpa using this
    have hbak1lit : ((countdown depth).foldl (rotateStep (goStem src) (goExt src)) fs) ((goStem src) ++ ".bak" ++ (goExt src)) = some (c (n - 1)) := hgbak1.trans hfsbak1
    refine ⟨fsRename src (bakName (goStem src) (goExt src) 1)
        (fsRename (bakName (goStem src) (goExt src) 1) ((goStem src) ++ ".bak.2" ++ (goExt src)) (fsRemove ((goStem src) ++ ".bak.2" ++ (goExt src)) ((countdown depth).foldl (rotateStep (goStem src) (goExt src)) fs))), ?_, ?_, ?_, ?_, ?_⟩
    · -- the evaluation of RotateBackups
      show (match (match ((countdown depth).foldl (rotateStep (goStem src) (goExt src)) fs) ((goStem src) ++ ".bak" ++ (goExt src)) with
             | some _ => fsRename ((goStem src) ++ ".bak" ++ (goExt src)) ((goStem src) ++ ".bak.2" ++ (goExt src))
                 (fsRemove ((goStem src) ++ ".bak.2" ++ (goExt src)) ((countdown depth).foldl (rotateStep (goStem src) (goExt src)) fs))
             | none => ((countdown depth).foldl (rotateStep (goStem src) (goExt src)) fs)) src with
           | some _ =>
               Except.ok
                 (fsRename src ((goStem src) ++ ".bak" ++ (goExt src))
                   (match ((countdown depth).foldl (rotateStep (goStem src) (goExt src)) fs) ((goStem src) ++ ".bak" ++ (goExt src)) with
                    | some _ => fsRename ((goStem src) ++ ".bak" ++ (goExt src)) ((goStem src) ++ ".bak.2" ++ (goExt src))
                        (fsRemove ((goStem src) ++ ".bak.2" ++ (goExt src)) ((countdown depth).foldl (rotateStep (goStem src) (goExt src)) fs))
                    | none => ((countdown depth).foldl (rotateStep (goStem src) (goExt src)) fs)),
                  (goStem src) ++ ".bak" ++ (goExt src))
           | none => Except.error (GoErr.plain "failed to create backup")) = _
      have hM : (match ((countdown depth).foldl (rotateStep (goStem src) (goExt src)) fs) ((goStem src) ++ ".bak" ++ (goExt src)) with
           | some _ => fsRename ((goStem src) ++ ".bak" ++ (goExt src)) ((goStem src) ++ ".bak.2" ++ (goExt src))
               (fsRemove ((goStem src) ++ ".bak.2" ++ (goExt src)) ((countdown depth).foldl (rotateStep (goStem src) (goExt src)) fs))
           | none => ((countdown depth).foldl (rotateStep (goStem src) (goExt src)) fs))
          = fsRename ((goStem src) ++ ".bak" ++ (goExt src)) ((goStem src) ++ ".bak.2" ++ (goExt src))
              (fsRemove ((goStem src) ++ ".bak.2" ++ (goExt src)) ((countdown depth).foldl (rotateStep (goStem src) (goExt src)) fs)) := by
        rw [hbak1lit]
      rw [hM]
      have hfs2src : (fsRename ((goStem src) ++ ".bak" ++ (goExt src)) ((goStem src) ++ ".bak.2" ++ (goExt src))
          (fsRemove ((goStem src) ++ ".bak.2" ++ (goExt src)) ((countdown depth).foldl (rotateStep (goStem src) (goExt src)) fs))) src = some (c n) := by
        rw [fsRename_other _ _ _ _ hsne2 hsne1]
        rw [fsRemove_ne _ _ _ hsne2]
        rw [hgsrc, h1]
      rw [hfs2src]
      rfl
    · -- source holds the fresh pack
      exact fsWrite_at src (c (n + 1)) _
    · -- generations 1..min (n+1) depth
      intro k hk1 hkmin
      rw [fsWrite_ne _ _ _ _ (Ne.symm (src_ne_bakName src k))]
      by_cases hk1e : k = 1
      · subst hk1e
        rw [fsRename_at_new]
        rw [fsRename_other _ _ _ _ hsne2 (src_ne_bakName src 1)]
        rw [fsRemove_ne _ _ _ hsne2]
        rw [hgsrc, h1]
        rfl
      · by_cases hk2e : k = 2
        · subst hk2e
          rw [fsRename_other src (bakName (goStem src) (goExt src) 1) _ _
            (fun h => by
              have := bakName_inj (goStem src) (goExt src) h (by omega) (by omega)
              omega)
            (Ne.symm (src_ne_bakName src 2))]
          rw [← hb2]
          rw [fsRename_at_new]
          rw [fsRemove_ne _ _ _ hb1ne2]
          rw [hgbak1, hfsbak1]
          rfl
        · have hk3 : 3 ≤ k := by omega
          have hkne1 : bakName (goStem src) (goExt src) k ≠ (bakName (goStem src) (goExt src) 1) := fun h => by
            have := bakName_inj (goStem src) (goExt src) h (by omega) (by omega)
            omega
          have hkne2 : bakName (goStem src) (goExt src) k ≠ ((goStem src) ++ ".bak.2" ++ (goExt src)) := fun h => by
            have := bakName_inj (goStem src) (goExt src) (h.trans hb2) (by omega) (by omega)
            omega
          rw [fsRename_other src (bakName (goStem src) (goExt src) 1) _ _ hkne1 (Ne.symm (src_ne_bakName src k))]
          rw [fsRename_other (bakName (goStem src) (goExt src) 1) ((goStem src) ++ ".bak.2" ++ (goExt src)) _ _ hkne2 hkne1]
          rw [fsRemove_ne _ _ _ hkne2]
          have hkd : k ≤ depth := by omega
          rw [hgbakk k (by omega) hkd]
          rw [← bakName_eq_loopBakName (goStem src) (goExt src) (k - 1) (by omega)]
          rw [h2 (k - 1) (by omega) (by omega)]
          rw [show n - (k - 1) = n + 1 - k from by omega]
    · -- no generation beyond min (n+1) depth
      intro k hk1 hgt
      have hk3 : 3 ≤ k := by omega
      have hkne1 : bakName (goStem src) (goExt src) k ≠ (bakName (goStem src) (goExt src) 1) := fun h => by
        have := bakName_inj (goStem src) (goExt src) h (by omega) (by omega)
        omega
      have hkne2 : bakName (goStem src) (goExt src) k ≠ ((goStem src) ++ ".bak.2" ++ (goExt src)) := fun h => by
        have := bakName_inj (goStem src) (goExt src) (h.trans hb2) (by omega) (by omega)
        omega
      rw [fsWrite_ne _ _ _ _ (Ne.symm (src_ne_bakName src k))]
      rw [fsRename_other src (bakName (goStem src) (goExt src) 1) _ _ hkne1 (Ne.symm (src_ne_bakName src k))]
      rw [fsRename_other (bakName (goStem src) (goExt src) 1) ((goStem src) ++ ".bak.2" ++ (goExt src)) _ _ hkne2 hkne1]
      rw [fsRemove_ne _ _ _ hkne2]
      by_cases hkd : k ≤ depth
      · rw [hgbakk k (by omega) hkd]
        rw [← bakName_eq_loopBakName (goStem src) (goExt src) (k - 1) (by omega)]
        exact h3 (k - 1) (by omega) (by omega)
      · rw [hgbakgt k (by omega) (by omega)]
        exact h3 k (by omega) (by omega)
    · -- nothing else exists
      intro name hnsrc hnb
      have hn2 : name ≠ ((goStem src) ++ ".bak.2" ++ (goExt src)) := fun h => hnb 2 (by omega) (h.trans hb2)
      rw [fsWrite_ne _ _ _ _ hnsrc]
      rw [fsRename_other src (bakName (goStem src) (goExt src) 1) _ _ (hnb 1 (by omega)) hnsrc]
      rw [fsRename_other (bakName (goStem src) (goExt src) 1) ((goStem src) ++ ".bak.2" ++ (goExt src)) _ _ hn2 (hnb 1 (by omega))]
      rw [fsRemove_ne _ _ _ hn2]
      by_cases hl1 : name = loopBakName (goStem src) (goExt src) 1
      · rw [hl1]
        exact fb hdepth
      · rw [fc name (fun j hj1 hjd => by
          by_cases hj1e : j = 1
          · subst hj1e
            exact hl1
          · rw [← bakName_eq_loopBakName (goStem src) (goExt src) j (by omega)]
            exact hnb j hj1)]
        exact h4 name hnsrc hnb
  · -- clean source: no backups yet
    have hn0 : n = 0 := by omega
    subst hn0
    have hfsbak1 : fs (bakName (goStem src) (goExt src) 1) = none := by
      apply h3 1 (by omega)
      omega
    have hbak1lit : ((countdown depth).foldl (rotateStep (goStem src) (goExt src)) fs) ((goStem src) ++ ".bak" ++ (goExt src)) = none := hgbak1.trans hfsbak1
    refine ⟨fsRename src (bakName (goStem src) (goExt src) 1) ((countdown depth).foldl (rotateStep (goStem src) (goExt src)) fs), ?_, ?_, ?_, ?_, ?_⟩
    · -- the evaluation of RotateBackups
      show (match (match ((countdown depth).foldl (rotateStep (goStem src) (goExt src)) fs) ((goStem src) ++ ".bak" ++ (goExt src)) with
             | some _ => fsRename ((goStem src) ++ ".bak" ++ (goExt src)) ((goStem src) ++ ".bak.2" ++ (goExt src))
                 (fsRemove ((goStem src) ++ ".bak.2" ++ (goExt src)) ((countdown depth).foldl (rotateStep (goStem src) (goExt src)) fs))
             | none => ((countdown depth).foldl (rotateStep (goStem src) (goExt src)) fs)) src with
           | some _ =>
               Except.ok
                 (fsRename src ((goStem src) ++ ".bak" ++ (goExt src))
                   (match ((countdown depth).foldl (rotateStep (goStem src) (goExt src)) fs) ((goStem src) ++ ".bak" ++ (goExt src)) with
                    | some _ => fsRename ((goStem src) ++ ".bak" ++ (goExt src)) ((goStem src) ++ ".bak.2" ++ (goExt src))
                        (fsRemove ((goStem src) ++ ".bak.2" ++ (goExt src)) ((countdown depth).foldl (rotateStep (goStem src) (goExt src)) fs))
                    | none => ((countdown depth).foldl (rotateStep (goStem src) (goExt src)) fs)),
                  (goStem src) ++ ".bak" ++ (goExt src))
           | none => Except.error (GoErr.plain "failed to create backup")) = _
      have hM : (match ((countdown depth).foldl (rotateStep (goStem src) (goExt src)) fs) ((goStem src) ++ ".bak" ++ (goExt src)) with
           | some _ => fsRename ((goStem src) ++ ".bak" ++ (goExt src)) ((goStem src) ++ ".bak.2" ++ (goExt src))
               (fsRemove ((goStem src) ++ ".bak.2" ++ (goExt src)) ((countdown depth).foldl (rotateStep (goStem src) (goExt src)) fs))
           | none => ((countdown depth).foldl (rotateStep (goStem src) (goExt src)) fs)) = ((countdown depth).foldl (rotateStep (goStem src) (goExt src)) fs) := by
        rw [hbak1lit]
      rw [hM]
      have hgsrc2 : ((countdown depth).foldl (rotateStep (goStem src) (goExt src)) fs) src = some (c 0) := hgsrc.trans h1
      rw [hgsrc2]
      rfl
    · exact fsWrite_at src (c 1) _
    · intro k hk1 hkmin
      have hke1 : k = 1 := by omega
      subst hke1
      rw [fsWrite_ne _ _ _ _ (Ne.symm (src_ne_bakName src 1))]
      rw [fsRename_at_new]
      rw [hgsrc, h1]
    · intro k hk1 hgt
      have hk2 : 2 ≤ k := by omega
      have hkne1 : bakName (goStem src) (goExt src) k ≠ (bakName (goStem src) (goExt src) 1) := fun h => by
        have := bakName_inj (goStem src) (goExt src) h (by omega) (by omega)
        omega
      rw [fsWrite_ne _ _ _ _ (Ne.symm (src_ne_bakName src k))]
      rw [fsRename_other src (bakName (goStem src) (goExt src) 1) _ _ hkne1 (Ne.symm (src_ne_bakName src k))]
      by_cases hkd : k ≤ depth
      · rw [hgbakk k hk2 hkd]
        by_cases hk2e : k = 2
        · subst hk2e
          exact hloop1
        · rw [← bakName_eq_loopBakName (goStem src) (goExt src) (k - 1) (by omega)]
          apply h3 (k - 1) (by omega)
          omega
      · rw [hgbakgt k (by omega) hk2]
        apply h3 k (by omega)
        omega
    · intro name hnsrc hnb
      rw [fsWrite_ne _ _ _ _ hnsrc]
      rw [fsRename_other src (bakName (goStem src) (goExt src) 1) _ _ (hnb 1 (by omega)) hnsrc]
      by_cases hl1 : name = loopBakName (goStem src) (goExt src) 1
      · rw [hl1]
        exact fb hdepth
      · rw [fc name (fun j hj1 hjd => by
          by_cases hj1e : j = 1
          · subst hj1e
            exact hl1
          · rw [← bakName_eq_loopBakName (goStem src) (goExt src) j (by omega)]
            exact hnb j hj1)]
        exact h4 name hnsrc hnb

end Zipfs

namespace Zipfs

/-- C7 counterexample: for rotation depth 1 the claim's min(N, depth)
bound fails.  The `…bak → …bak.2` step runs regardless of the depth, so
after two syncs from a clean `a.zip` both `a.bak.zip` and `a.bak.2.zip`
exist — two generations where min(2, 1) = 1 is claimed. -/
theorem C7_depth_one_two_generations :
    syncIterFs "a.zip" 1 (fun n => [n]) 2 "a.bak.zip" = some [1] ∧
    syncIterFs "a.zip" 1 (fun n => [n]) 2 "a.bak.2.zip" = some [0] ∧
    min 2 1 = 1 := by
  refine ⟨by decide, by decide, by decide⟩

/-- C7 amended: for every rotation depth of at least 2, starting from a
clean source, after N successive syncs the source directory holds the
freshly packed source, exactly the backup generations 1..min(N, depth)
(generation k holding the source as it was before the k-th most recent
sync, so the most recent backup is always at `S.bak.E`), and nothing
else; a source without an extension gets `.bak` appended. -/
theorem C7_rotation_stability
    (src : String) (depth : Nat) (c : Nat → List Nat)
    (hdepth : 2 ≤ depth) :
    (∀ n, SyncInv src depth c n (syncIterFs src depth c n)) ∧
    (∀ n, 1 ≤ n →
      syncIterFs src depth c n (bakName (goStem src) (goExt src) 1) = some (c (n - 1))) ∧
    (goExt src = "" → bakName (goStem src) (goExt src) 1 = src ++ ".bak") := by
  have main : ∀ n, SyncInv src depth c n (syncIterFs src depth c n) := by
    intro n
    induction n with
    | zero =>
      refine ⟨fsWrite_at src (c 0) fsEmpty, ?_, ?_, ?_⟩
      · intro k hk1 hkmin
        rw [Nat.zero_min] at hkmin
        omega
      · intro k hk1 _
        show fsWrite src (c 0) fsEmpty (bakName (goStem src) (goExt src) k) = none
        rw [fsWrite_ne _ _ _ _ (Ne.symm (src_ne_bakName src k))]
        rfl
      · intro name hnsrc _
        show fsWrite src (c 0) fsEmpty name = none
        rw [fsWrite_ne _ _ _ _ hnsrc]
        rfl
    | succ n ih =>
      obtain ⟨g2, heq, hinv2⟩ := rotateBackups_inv src depth hdepth c n _ ih
      have hstep : syncIterFs src depth c (n + 1) = fsWrite src (c (n + 1)) g2 := by
        show (match rotateBackups (syncIterFs src depth c n) src depth with
              | .ok (fs, _) => fsWrite src (c (n + 1)) fs
              | .error _ => fsEmpty) = _
        rw [heq]
      rw [hstep]
      exact hinv2
  refine ⟨main, ?_, ?_⟩
  · intro n hn
    have h := (main n).2.1 1 (by omega) (Nat.le_min.mpr ⟨hn, by omega⟩)
    simpa using h
  · intro hext
    have hstem : goStem src = src := by
      unfold goStem
      rw [hext]
      show String.mk (src.data.take (src.length - ("" : String).length)) = src
      have h0 : src.length - ("" : String).length = src.data.length := rfl
      rw [h0, List.take_length]
    unfold bakName
    rw [if_pos rfl, hext, hstem]
    exact String.append_empty _

/-- Witness for C7 at source "a.zip" and depth 3. -/
theorem C7_rotation_stability_witness :
    (∀ n, SyncInv "a.zip" 3 (fun i => [i]) n (syncIterFs "a.zip" 3 (fun i => [i]) n)) ∧
    (∀ n, 1 ≤ n →
      syncIterFs "a.zip" 3 (fun i => [i]) n (bakName (goStem "a.zip") (goExt "a.zip") 1)
        = some [n - 1]) ∧
    (goExt "a.zip" = "" → bakName (goStem "a.zip") (goExt "a.zip") 1 = "a.zip" ++ ".bak") :=
  C7_rotation_stability "a.zip" 3 (fun i => [i]) (by decide)

end Zipfs
